import Mathlib

/-!
# sign_verify_tpm: provisioning a TPM signing key, signing and verifying

A shallow embedding of `example/sign_verify_tpm/main.go`.

The program is a single `main` that talks to three outside collaborators: the
TPM (package `tpm2` and `client.Handles`), the file system (`ioutil.WriteFile`)
and the signer adapter (package `saltpm`).  None of them is part of the file,
so they are a parameter of the embedding: an `Env σ` gives, for every call the
program makes, the result of the call and the next state of the outside world
`σ`.  Every theorem below quantifies over all such environments.

The program itself is embedded as functions that return what the program did,
as a list of `Event`s: each call it made together with the result it got, and
each piece of text it wrote.  The blocks of `main` are

* `flushLoop`  : lines 89-96, the inner loop over the enumerated handles,
* `janitor`    : lines 82-97, the loop over the selected handle kinds,
* `provision`  : lines 99-148,
* `signVerify` : lines 151-200,
* `main`       : lines 72-202.
-/

namespace SignVerifyTpm

/-! ## Data model -/

/-- A `tpmutil.Handle` (a `uint32`; the program does no arithmetic on it). -/
abbrev Handle := Nat

/-- A byte slice. -/
abbrev Bytes := List Nat

/-- A Go `error` value that is not nil: the dynamic type's name, which `fmt`
prints for a surplus argument, and the text of `Error()`. -/
structure GoError where
  typeName : String
  msg : String
deriving DecidableEq, Repr

/-- The result of a call that returns `(value, error)`. -/
inductive Res (α : Type) where
  | ok (val : α)
  | err (e : GoError)
deriving DecidableEq, Repr

/-- The three `tpm2.HandleType` values the program names. -/
inductive HandleType where
  | loadedSession
  | savedSession
  | transient
deriving DecidableEq, Repr

/-- The `tpm2.Algorithm` values the program names. -/
inductive Algorithm where
  | rsa
  | sha256
  | aes
  | cfb
  | rsassa
deriving DecidableEq, Repr

/-- The `tpm2.KeyProp` flags the program names; a set of flags joined with `|`
is a list of them. -/
inductive KeyProp where
  | fixedTPM
  | fixedParent
  | sensitiveDataOrigin
  | userWithAuth
  | restricted
  | decrypt
  | sign
deriving DecidableEq, Repr

structure SymScheme where
  alg : Algorithm
  keyBits : Nat
  mode : Algorithm
deriving DecidableEq, Repr

structure SigScheme where
  alg : Algorithm
  hash : Algorithm
deriving DecidableEq, Repr

structure RSAParams where
  symmetric : Option SymScheme
  sign : Option SigScheme
  keyBits : Nat
deriving DecidableEq, Repr

/-- The fields of `tpm2.Public` the program sets. -/
structure Public where
  type : Algorithm
  nameAlg : Algorithm
  attributes : List KeyProp
  authPolicy : Bytes
  rsaParameters : Option RSAParams
deriving DecidableEq, Repr

structure PCRSelection where
  hash : Algorithm
  pcrs : List Int
deriving DecidableEq, Repr

/-- The `x509.SignatureAlgorithm` values the file mentions. -/
inductive SignatureAlgorithm where
  | sha256WithRSA
  | sha256WithRSAPSS
deriving DecidableEq, Repr

/-- The `crypto.Hash` value the program names. -/
inductive CryptoHash where
  | sha256
deriving DecidableEq, Repr

/-- The fields of `saltpm.TPM` the program sets. -/
structure TPMConfig where
  tpmDevice : String
  tpmHandleFile : String
  signatureAlgorithm : SignatureAlgorithm
deriving DecidableEq, Repr

/-- What `r.Public()` returns: a `crypto.PublicKey`, which is or is not a
`*rsa.PublicKey`. -/
inductive PublicKey where
  | rsa (n e : Nat)
  | other
deriving DecidableEq, Repr

/-- What a failed `ioutil.WriteFile` left behind: the named file as it was
(the open failed), or truncated / created with some of the data. -/
inductive Residue where
  | untouched
  | clobbered (content : Bytes)
deriving DecidableEq, Repr

/-- The result of `ioutil.WriteFile`. -/
inductive WriteRes where
  | ok
  | err (e : GoError) (left : Residue)
deriving DecidableEq, Repr

/-- The command-line flags after `flag.Parse()`. -/
structure Flags where
  tpmPath : String
  primaryHandle : String
  keyHandle : String
  flush : String
deriving DecidableEq, Repr

/-- The default values of the four flags (lines 28-31). -/
def defaultFlags : Flags :=
  { tpmPath := "/dev/tpm0", primaryHandle := "primary.bin", keyHandle := "key.bin", flush := "all" }

/-! ## Package-level values (lines 22-70) -/

def emptyPassword : String := ""

def defaultPassword : String := ""

/-- The constant `tpm2.HandleOwner` (TPM_RH_OWNER). -/
def HandleOwner : Handle := 0x40000001

/-- The map `handleNames` (lines 33-38); indexing a Go map with a key it does
not hold gives the zero value, here the nil slice. -/
def handleNames (key : String) : List HandleType :=
  if key = "all" then [.loadedSession, .savedSession, .transient]
  else if key = "loaded" then [.loadedSession]
  else if key = "saved" then [.savedSession]
  else if key = "transient" then [.transient]
  else []

def defaultKeyParams : Public :=
  { type := .rsa
    nameAlg := .sha256
    attributes := [.fixedTPM, .fixedParent, .sensitiveDataOrigin, .userWithAuth, .restricted, .decrypt]
    authPolicy := []
    rsaParameters := some
      { symmetric := some { alg := .aes, keyBits := 128, mode := .cfb }
        sign := none
        keyBits := 2048 } }

def rsaKeyParams : Public :=
  { type := .rsa
    nameAlg := .sha256
    attributes := [.fixedTPM, .fixedParent, .sensitiveDataOrigin, .userWithAuth, .sign]
    authPolicy := []
    rsaParameters := some
      { symmetric := none
        sign := some { alg := .rsassa, hash := .sha256 }
        keyBits := 2048 } }

/-! ## Events: what the program does to the outside world -/

/-- One observable action of the program: a call with the result it returned,
or text written to a stream.  The device `rwc` is the one the run opened and
the signer `r` is the one the run built, so neither is an argument.
`stdout` is text written by `fmt.Printf` and `stderr` text written by
`fmt.Fprintf(os.Stderr, ...)`; `println` is `fmt.Println(err)`, which writes
the text of `err` (`<nil>` for a nil error) and a newline to standard output;
`logPrintln` is `log.Println(err)`, which writes a time stamp and the text of
`err` to standard error. -/
inductive Event where
  | openTPM (path : String) (res : Option GoError)
  | handles (t : HandleType) (res : Res (List Handle))
  | flushContext (h : Handle) (res : Option GoError)
  | createPrimary (owner : Handle) (sel : PCRSelection) (parentPw ownerPw : String)
      (tmpl : Public) (res : Res Handle)
  | contextSave (h : Handle) (res : Res Bytes)
  | writeFile (path : String) (data : Bytes) (perm : Nat) (res : WriteRes)
  | createKey (parent : Handle) (sel : PCRSelection) (parentPw ownerPw : String)
      (tmpl : Public) (res : Res (Bytes × Bytes))
  | load (parent : Handle) (parentAuth : String) (pubBlob privBlob : Bytes) (res : Res Handle)
  | close (res : Option GoError)
  | newTPMCrypto (conf : TPMConfig) (res : Option GoError)
  | sign (digest : Bytes) (hash : CryptoHash) (res : Res Bytes)
  | getPublic (res : PublicKey)
  | verifyPKCS1v15 (n e : Nat) (hash : CryptoHash) (digest sig : Bytes) (res : Option GoError)
  | stdout (text : String)
  | stderr (text : String)
  | println (val : Option GoError)
  | logPrintln (val : GoError)
deriving DecidableEq, Repr

/-- How `main` stopped: by returning (exit status 0) or through `os.Exit`. -/
inductive Outcome where
  | returned
  | exit (code : Nat)
deriving DecidableEq, Repr

/-- The outside world: for each call, its result and the next state.  The
values a call returns and the program discards (the public key of
`CreatePrimary`, the creation data of `CreateKey`, the name of `Load`) are
left out. -/
structure Env (σ : Type) where
  openTPM : String → σ → Option GoError × σ
  handles : HandleType → σ → Res (List Handle) × σ
  flushContext : Handle → σ → Option GoError × σ
  createPrimary : Handle → PCRSelection → String → String → Public → σ → Res Handle × σ
  contextSave : Handle → σ → Res Bytes × σ
  writeFile : String → Bytes → Nat → σ → WriteRes × σ
  createKey : Handle → PCRSelection → String → String → Public → σ → Res (Bytes × Bytes) × σ
  load : Handle → String → Bytes → Bytes → σ → Res Handle × σ
  close : σ → Option GoError × σ
  newTPMCrypto : TPMConfig → σ → Option GoError × σ
  sign : Bytes → CryptoHash → σ → Res Bytes × σ
  getPublic : σ → PublicKey × σ
  verifyPKCS1v15 : Nat → Nat → CryptoHash → Bytes → Bytes → σ → Option GoError × σ

/-- The pure library functions the program calls. -/
structure Lib where
  sha256 : Bytes → Bytes
  base64 : Bytes → String

/-- Whether a block ran to its end (with the value it hands on) or stopped the
program. -/
inductive Flow (α : Type) where
  | next (val : α)
  | halt (o : Outcome)
deriving DecidableEq, Repr

/-- What a block of `main` did: how it ended, the world it left, the events in
order. -/
structure Step (σ : Type) (α : Type) where
  flow : Flow α
  world : σ
  trace : List Event

/-- A whole run of `main`. -/
structure Run (σ : Type) where
  outcome : Outcome
  world : σ
  trace : List Event

/-! ## Text the program writes -/

/-- The verb `%x` of `fmt` on an unsigned integer: lower-case hexadecimal with
no leading zeros. -/
def hex (n : Nat) : String := String.mk (Nat.toDigits 16 n)

/-- Line 78. -/
def msgOpen (path : String) (e : GoError) : String :=
  "Can't open TPM " ++ path ++ ": " ++ e.msg

/-- Line 86: the format has no verb, so `fmt` appends the two surplus
arguments as `%!(EXTRA type=value, type=value)`. -/
def msgHandles (path : String) (e : GoError) : String :=
  "error getting handles" ++ "%!(EXTRA string=" ++ path ++ ", " ++ e.typeName ++ "=" ++ e.msg ++ ")"

/-- Line 91. -/
def msgFlushError (h : Handle) (e : GoError) : String :=
  "Error flushing handle 0x" ++ hex h ++ ": " ++ e.msg ++ "\n"

/-- Line 94. -/
def msgFlushed (h : Handle) : String :=
  "Handle 0x" ++ hex h ++ " flushed\n"

/-! ## The program -/

/-- Lines 89-96: flush every enumerated handle, counting in `totalHandles`. -/
def flushLoop {σ : Type} (E : Env σ) : List Handle → Nat → σ → Step σ Nat
  | [], totalHandles, w => ⟨.next totalHandles, w, []⟩
  | handle :: rest, totalHandles, w =>
    match E.flushContext handle w with
    | (some err, w1) =>
      ⟨.halt (.exit 1), w1, [.flushContext handle (some err), .stderr (msgFlushError handle err)]⟩
    | (none, w1) =>
      let r := flushLoop E rest (totalHandles + 1) w1
      ⟨r.flow, r.world, .flushContext handle none :: .stdout (msgFlushed handle) :: r.trace⟩

/-- Lines 83-97: for every selected handle kind, enumerate and flush. -/
def janitor {σ : Type} (E : Env σ) (tpmPath : String) : List HandleType → Nat → σ → Step σ Nat
  | [], totalHandles, w => ⟨.next totalHandles, w, []⟩
  | handleType :: rest, totalHandles, w =>
    match E.handles handleType w with
    | (.err err, w1) =>
      ⟨.halt (.exit 1), w1, [.handles handleType (.err err), .stderr (msgHandles tpmPath err)]⟩
    | (.ok handles, w1) =>
      match flushLoop E handles totalHandles w1 with
      | ⟨.halt o, w2, tr⟩ => ⟨.halt o, w2, .handles handleType (.ok handles) :: tr⟩
      | ⟨.next total, w2, tr⟩ =>
        let r := janitor E tpmPath rest total w2
        ⟨r.flow, r.world, .handles handleType (.ok handles) :: (tr ++ r.trace)⟩

/-- Lines 99-148: create the primary, save it, create and load the signing
key, save it, flush both, close.  The two `FlushContext` calls of lines 130
and 142 are statements: what they return is dropped. -/
def provision {σ : Type} (E : Env σ) (flags : Flags) (w : σ) : Step σ Unit :=
  let pcrSelection : PCRSelection := { hash := .sha256, pcrs := [0] }
  match E.createPrimary HandleOwner pcrSelection emptyPassword emptyPassword defaultKeyParams w with
  | (.err err, w1) =>
    ⟨.halt .returned, w1,
      [.createPrimary HandleOwner pcrSelection emptyPassword emptyPassword defaultKeyParams (.err err),
       .stderr ("Error creating Primary " ++ err.msg ++ "\n")]⟩
  | (.ok pkh, w1) =>
  let e1 := Event.createPrimary HandleOwner pcrSelection emptyPassword emptyPassword defaultKeyParams (.ok pkh)
  match E.contextSave pkh w1 with
  | (.err err, w2) =>
    ⟨.halt .returned, w2,
      [e1, .contextSave pkh (.err err), .stderr ("ContextSave failed for pkh " ++ err.msg ++ "\n")]⟩
  | (.ok pkhBytes, w2) =>
  let e2 := Event.contextSave pkh (.ok pkhBytes)
  match E.writeFile flags.primaryHandle pkhBytes 0o644 w2 with
  | (.err err left, w3) =>
    ⟨.halt .returned, w3,
      [e1, e2, .writeFile flags.primaryHandle pkhBytes 0o644 (.err err left),
       .stderr ("ContextSave failed for pkh" ++ err.msg ++ "\n")]⟩
  | (.ok, w3) =>
  let e3 := Event.writeFile flags.primaryHandle pkhBytes 0o644 .ok
  match E.createKey pkh pcrSelection defaultPassword defaultPassword rsaKeyParams w3 with
  | (.err err, w4) =>
    ⟨.halt (.exit 1), w4,
      [e1, e2, e3, .createKey pkh pcrSelection defaultPassword defaultPassword rsaKeyParams (.err err),
       .stderr ("Error  CreateKey " ++ err.msg ++ "\n")]⟩
  | (.ok (privInternal, pubArea), w4) =>
  let e4 := Event.createKey pkh pcrSelection defaultPassword defaultPassword rsaKeyParams
    (.ok (privInternal, pubArea))
  match E.load pkh defaultPassword pubArea privInternal w4 with
  | (.err err, w5) =>
    ⟨.halt (.exit 1), w5,
      [e1, e2, e3, e4, .load pkh defaultPassword pubArea privInternal (.err err),
       .stderr ("Error  loading  key handle" ++ err.msg ++ "\n")]⟩
  | (.ok newHandle, w5) =>
  let e5 := Event.load pkh defaultPassword pubArea privInternal (.ok newHandle)
  let f6 := E.flushContext pkh w5
  let e6 := Event.flushContext pkh f6.1
  match E.contextSave newHandle f6.2 with
  | (.err err, w7) =>
    ⟨.halt (.exit 1), w7,
      [e1, e2, e3, e4, e5, e6, .contextSave newHandle (.err err),
       .stderr ("ContextSave failed for ekh " ++ err.msg ++ "\n")]⟩
  | (.ok ekhBytes, w7) =>
  let e7 := Event.contextSave newHandle (.ok ekhBytes)
  match E.writeFile flags.keyHandle ekhBytes 0o644 w7 with
  | (.err err left, w8) =>
    ⟨.halt (.exit 1), w8,
      [e1, e2, e3, e4, e5, e6, e7, .writeFile flags.keyHandle ekhBytes 0o644 (.err err left),
       .stderr ("ContextSave failed for ekh" ++ err.msg ++ "\n")]⟩
  | (.ok, w8) =>
  let e8 := Event.writeFile flags.keyHandle ekhBytes 0o644 .ok
  let f9 := E.flushContext newHandle w8
  let e9 := Event.flushContext newHandle f9.1
  match E.close f9.2 with
  | (some err, w10) =>
    ⟨.halt (.exit 1), w10,
      [e1, e2, e3, e4, e5, e6, e7, e8, e9, .close (some err),
       .stderr ("error closing tpm" ++ err.msg ++ "\n")]⟩
  | (none, w10) =>
    ⟨.next (), w10, [e1, e2, e3, e4, e5, e6, e7, e8, e9, .close none]⟩

/-- The bytes of the string `"foo"`. -/
def stringToSignBytes : Bytes := [102, 111, 111]

/-- Lines 151-200: build the signer over the key file, sign the digest of
`"foo"`, verify the signature with the signer's public key. -/
def signVerify {σ : Type} (E : Env σ) (L : Lib) (flags : Flags) (w : σ) : Run σ :=
  let e0 := Event.stdout ("Data to sign " ++ "foo" ++ "\n")
  let digest := L.sha256 stringToSignBytes
  let conf : TPMConfig :=
    { tpmDevice := flags.tpmPath, tpmHandleFile := flags.keyHandle, signatureAlgorithm := .sha256WithRSA }
  match E.newTPMCrypto conf w with
  | (some err, w1) =>
    ⟨.returned, w1, [e0, .newTPMCrypto conf (some err), .println (some err)]⟩
  | (none, w1) =>
  let e1 := Event.newTPMCrypto conf none
  match E.sign digest .sha256 w1 with
  | (.err err, w2) =>
    ⟨.returned, w2, [e0, e1, .sign digest .sha256 (.err err), .logPrintln err]⟩
  | (.ok s, w2) =>
  let e2 := Event.sign digest .sha256 (.ok s)
  let e3 := Event.stdout ("Signed String: " ++ L.base64 s ++ "\n")
  match E.getPublic w2 with
  | (.other, w3) =>
    ⟨.returned, w3, [e0, e1, e2, e3, .getPublic .other, .println none]⟩
  | (.rsa n e, w3) =>
  let e4 := Event.getPublic (.rsa n e)
  match E.verifyPKCS1v15 n e .sha256 digest s w3 with
  | (some err, w4) =>
    ⟨.returned, w4, [e0, e1, e2, e3, e4, .verifyPKCS1v15 n e .sha256 digest s (some err),
      .println (some err)]⟩
  | (none, w4) =>
    ⟨.returned, w4, [e0, e1, e2, e3, e4, .verifyPKCS1v15 n e .sha256 digest s none,
      .stdout "Signed String verified\n"]⟩

/-- The function `main` (lines 72-202). -/
def main {σ : Type} (E : Env σ) (L : Lib) (flags : Flags) (w : σ) : Run σ :=
  match E.openTPM flags.tpmPath w with
  | (some err, w1) =>
    ⟨.returned, w1, [.openTPM flags.tpmPath (some err), .stderr (msgOpen flags.tpmPath err)]⟩
  | (none, w1) =>
  match janitor E flags.tpmPath (handleNames flags.flush) 0 w1 with
  | ⟨.halt o, w2, tr⟩ => ⟨o, w2, .openTPM flags.tpmPath none :: tr⟩
  | ⟨.next _, w2, tr⟩ =>
  match provision E flags w2 with
  | ⟨.halt o, w3, tr3⟩ => ⟨o, w3, .openTPM flags.tpmPath none :: (tr ++ tr3)⟩
  | ⟨.next _, w3, tr3⟩ =>
    let r := signVerify E L flags w3
    ⟨r.outcome, r.world, .openTPM flags.tpmPath none :: (tr ++ tr3 ++ r.trace)⟩

/-- The janitor loop as `main` runs it: on the kinds the `-flush` flag selects,
with the counter at zero, in the world `OpenTPM` left. -/
def janitorOf {σ : Type} (E : Env σ) (flags : Flags) (w : σ) : Step σ Nat :=
  janitor E flags.tpmPath (handleNames flags.flush) 0 (E.openTPM flags.tpmPath w).2

/-- The provisioning block as `main` runs it: in the world the janitor left. -/
def provisionOf {σ : Type} (E : Env σ) (flags : Flags) (w : σ) : Step σ Unit :=
  provision E flags (janitorOf E flags w).world

/-- The signing and verification block as `main` runs it: in the world
provisioning left. -/
def signVerifyOf {σ : Type} (E : Env σ) (L : Lib) (flags : Flags) (w : σ) : Run σ :=
  signVerify E L flags (provisionOf E flags w).world

/-! ## Reading a trace -/

/-- The call returned an error. -/
def Res.isErr {α : Type} : Res α → Bool
  | .ok _ => false
  | .err _ => true

/-- The write returned an error. -/
def WriteRes.isErr : WriteRes → Bool
  | .ok => false
  | .err _ _ => true

/-- The event is a call that returned an error. -/
def Event.failed : Event → Bool
  | .openTPM _ r => r.isSome
  | .handles _ r => r.isErr
  | .flushContext _ r => r.isSome
  | .createPrimary _ _ _ _ _ r => r.isErr
  | .contextSave _ r => r.isErr
  | .writeFile _ _ _ r => r.isErr
  | .createKey _ _ _ _ _ r => r.isErr
  | .load _ _ _ _ r => r.isErr
  | .close r => r.isSome
  | .newTPMCrypto _ r => r.isSome
  | .sign _ _ r => r.isErr
  | .verifyPKCS1v15 _ _ _ _ _ r => r.isSome
  | _ => false

/-- A command sent to the opened TPM device, or a write to storage: the
operations of the janitor and of provisioning. -/
def Event.isDeviceOp : Event → Bool
  | .handles _ _ => true
  | .flushContext _ _ => true
  | .createPrimary _ _ _ _ _ _ => true
  | .contextSave _ _ => true
  | .writeFile _ _ _ _ => true
  | .createKey _ _ _ _ _ _ => true
  | .load _ _ _ _ _ => true
  | .close _ => true
  | _ => false

/-- A call of the signing and verification part. -/
def Event.isSignerOp : Event → Bool
  | .newTPMCrypto _ _ => true
  | .sign _ _ _ => true
  | .getPublic _ => true
  | .verifyPKCS1v15 _ _ _ _ _ _ => true
  | _ => false

/-- Text written to standard output or standard error. -/
def Event.isOutput : Event → Bool
  | .stdout _ => true
  | .stderr _ => true
  | .println _ => true
  | .logPrintln _ => true
  | _ => false

/-- The handles `FlushContext` was issued on, in order. -/
def flushCmds : List Event → List Handle
  | [] => []
  | .flushContext h _ :: rest => h :: flushCmds rest
  | _ :: rest => flushCmds rest

/-- The handle kinds `client.Handles` was asked for, in order. -/
def enumKinds : List Event → List HandleType
  | [] => []
  | .handles t _ :: rest => t :: enumKinds rest
  | _ :: rest => enumKinds rest

/-- The handle lists `client.Handles` returned, in order. -/
def enumerated : List Event → List (List Handle)
  | [] => []
  | .handles _ (.ok hs) :: rest => hs :: enumerated rest
  | _ :: rest => enumerated rest

/-- The paths `ioutil.WriteFile` was called on, in order. -/
def writtenPaths : List Event → List String
  | [] => []
  | .writeFile path _ _ _ :: rest => path :: writtenPaths rest
  | _ :: rest => writtenPaths rest

/-- Whether `Close` was called on the device. -/
def closeIssued : List Event → Bool
  | [] => false
  | .close _ :: _ => true
  | _ :: rest => closeIssued rest

/-! ## Storage -/

/-- The files: the content of each file, by the identity `ι` of the file (not
by a path: several paths can lead to one file, as `handle.bin` and
`./handle.bin` do). -/
abbrev FileStore (ι : Type) := ι → Option Bytes

/-- What one event does to the files, where `resolve` is the file system's
naming: the file a path leads to during the run.  `ioutil.WriteFile` touches
the file its path leads to and no other: a successful call leaves the data in
it, a failed call leaves what the result says. -/
def Event.apply {ι : Type} [DecidableEq ι] (resolve : String → ι) :
    Event → FileStore ι → FileStore ι
  | .writeFile path data _ .ok, fs => fun f => if f = resolve path then some data else fs f
  | .writeFile path _ _ (.err _ (.clobbered c)), fs =>
    fun f => if f = resolve path then some c else fs f
  | _, fs => fs

/-- The files after a run, given the naming and the files before it. -/
def filesAfter {ι : Type} [DecidableEq ι] (resolve : String → ι) (fs : FileStore ι) :
    List Event → FileStore ι
  | [] => fs
  | e :: rest => filesAfter resolve (e.apply resolve fs) rest

/-- The files `ioutil.WriteFile` was called on, in order. -/
def writtenFiles {ι : Type} (resolve : String → ι) (tr : List Event) : List ι :=
  (writtenPaths tr).map resolve

/-! ## A simulated device, to run the program on concrete inputs -/

/-- The state of the simulated world: the handles resident in the TPM by
kind, and the number of calls answered so far. -/
structure Sim where
  loaded : List Handle
  saved : List Handle
  transient : List Handle
  calls : Nat
deriving DecidableEq, Repr

/-- The error the simulated world returns when told to fail. -/
def simError : GoError := { typeName := "*errors.errorString", msg := "fault" }

def Sim.tick (s : Sim) : Sim := { s with calls := s.calls + 1 }

def Sim.flush (s : Sim) (h : Handle) : Sim :=
  { s with
    loaded := s.loaded.filter (· != h)
    saved := s.saved.filter (· != h)
    transient := s.transient.filter (· != h) }

/-- The next free transient handle. -/
def Sim.fresh (s : Sim) : Handle := 0x80000000 + s.transient.length

def Sim.alloc (s : Sim) : Sim := { s with transient := s.transient ++ [s.fresh] }

/-- A simulated world in which the calls whose number (counted from 0 in the
order the program makes them) satisfies `bad` return an error and all the
others succeed. -/
def simEnv (bad : Nat → Bool) : Env Sim where
  openTPM _ s := (if bad s.calls then some simError else none, s.tick)
  handles t s :=
    (if bad s.calls then .err simError
     else .ok (match t with
       | .loadedSession => s.loaded
       | .savedSession => s.saved
       | .transient => s.transient), s.tick)
  flushContext h s := if bad s.calls then (some simError, s.tick) else (none, (s.flush h).tick)
  createPrimary _ _ _ _ _ s :=
    if bad s.calls then (.err simError, s.tick) else (.ok s.fresh, s.alloc.tick)
  contextSave h s := (if bad s.calls then .err simError else .ok [0xCB, h % 256], s.tick)
  writeFile _ _ _ s := (if bad s.calls then .err simError (.clobbered []) else .ok, s.tick)
  createKey _ _ _ _ _ s := (if bad s.calls then .err simError else .ok ([1, 2, 3], [4, 5, 6]), s.tick)
  load _ _ _ _ s := if bad s.calls then (.err simError, s.tick) else (.ok s.fresh, s.alloc.tick)
  close s := (if bad s.calls then some simError else none, s.tick)
  newTPMCrypto _ s := (if bad s.calls then some simError else none, s.tick)
  sign digest _ s := (if bad s.calls then .err simError else .ok digest.reverse, s.tick)
  getPublic s := (.rsa 3233 17, s.tick)
  verifyPKCS1v15 _ _ _ digest sig s :=
    (if bad s.calls || sig != digest.reverse then some simError else none, s.tick)

/-- Stand-ins for the two pure library functions. -/
def simLib : Lib where
  sha256 b := b.map (· + 1)
  base64 b := String.mk (b.map Char.ofNat)

/-- No call fails. -/
def noFault : Nat → Bool := fun _ => false

/-- Exactly call number `k` fails. -/
def faultAt (k : Nat) : Nat → Bool := fun i => i == k

/-- An empty TPM. -/
def simEmpty : Sim := { loaded := [], saved := [], transient := [], calls := 0 }

/-- A TPM holding three stale transient handles and two saved sessions. -/
def simStale : Sim :=
  { loaded := []
    saved := [0x03000000, 0x03000001]
    transient := [0x80000000, 0x80000001, 0x80000002]
    calls := 0 }

/-- The flags of the scenario: flush scope `transient`, the rest default. -/
def transientFlags : Flags := { defaultFlags with flush := "transient" }

/-- Flags with a flush scope that is no key of `handleNames`. -/
def unknownFlags : Flags := { defaultFlags with flush := "none" }

/-- Flags that name one file for both blobs. -/
def sameFileFlags : Flags := { defaultFlags with primaryHandle := "handle.bin", keyHandle := "handle.bin" }

/-- Flags that name one file for both blobs by two different paths. -/
def aliasFlags : Flags := { defaultFlags with primaryHandle := "handle.bin", keyHandle := "./handle.bin" }

/-- The naming of the simulated runs: all files are in the working directory,
a file is known by its name there, and `./name` leads to the same file as
`name`. -/
def simResolve (path : String) : String :=
  match path.data with
  | '.' :: '/' :: rest => String.mk rest
  | _ => path

/-- No file exists. -/
def noFiles : FileStore String := fun _ => none

/-! ## Statements of the contract that the code is checked against -/

/-- A call whose error provisioning tests before it reaches `Close`:
`CreatePrimary`, `ContextSave`, `WriteFile`, `CreateKey`, `Load`. -/
def Event.isProvisionCheck : Event → Bool
  | .createPrimary _ _ _ _ _ _ => true
  | .contextSave _ _ => true
  | .writeFile _ _ _ _ => true
  | .createKey _ _ _ _ _ _ => true
  | .load _ _ _ _ _ => true
  | _ => false

/-- A step of provisioning that comes after the write of the primary blob and
can fail: `CreateKey`, `Load`, `ContextSave`, `WriteFile`. -/
def Event.isKeyStep : Event → Bool
  | .createKey _ _ _ _ _ _ => true
  | .load _ _ _ _ _ => true
  | .contextSave _ _ => true
  | .writeFile _ _ _ _ => true
  | _ => false

/-- The event is a call of `ioutil.WriteFile`. -/
def Event.isWrite : Event → Bool
  | .writeFile _ _ _ _ => true
  | _ => false

/-- A call that builds the signer or signs: `NewTPMCrypto`, `Sign`. -/
def Event.isSignStep : Event → Bool
  | .newTPMCrypto _ _ => true
  | .sign _ _ _ => true
  | _ => false

/-- The event is a call of `CreatePrimary`. -/
def Event.isCreatePrimary : Event → Bool
  | .createPrimary _ _ _ _ _ _ => true
  | _ => false

/-- "Every step's error aborts the remaining steps", read on a trace: after a
call that returned an error the run makes no further call to the device, to
storage or to the signer. -/
def AbortsOnError (tr : List Event) : Prop :=
  ∀ before e after, tr = before ++ e :: after → e.failed = true →
    ∀ x ∈ after, x.isDeviceOp = false ∧ x.isSignerOp = false

/-- "No rollback of partial state", read on a trace, the naming of files and
the files before the run: whenever the run created the primary, saved its
context and wrote the bytes to the primary blob file, and a later `CreateKey`,
`Load`, `ContextSave` or `WriteFile` failed, then after the run the file
`-primaryHandle` leads to holds those bytes, the run wrote that file once, and
unless the failed step is the write of the key file, the file `-keyHandle`
leads to is as it was before the run. -/
def NoRollback {ι : Type} [DecidableEq ι] (resolve : String → ι) (flags : Flags)
    (fs : FileStore ι) (tr : List Event) : Prop :=
  ∀ before owner sel pw1 pw2 tmpl pkh pkhBytes after e,
    tr = before ++ .createPrimary owner sel pw1 pw2 tmpl (.ok pkh)
      :: .contextSave pkh (.ok pkhBytes)
      :: .writeFile flags.primaryHandle pkhBytes 0o644 .ok :: after →
    e ∈ after → e.isKeyStep = true → e.failed = true →
    filesAfter resolve fs tr (resolve flags.primaryHandle) = some pkhBytes ∧
    (writtenFiles resolve tr).count (resolve flags.primaryHandle) = 1 ∧
    (e.isWrite = false →
      filesAfter resolve fs tr (resolve flags.keyHandle) = fs (resolve flags.keyHandle))

/-! ## The janitor the contract describes -/

/-- The trace of flushing each handle of a list once, in order, every flush
succeeding. -/
def flushRound : List Handle → List Event
  | [] => []
  | h :: hs => .flushContext h none :: .stdout (msgFlushed h) :: flushRound hs

/-- The trace of a janitor pass that, for each kind in turn, enumerates the
resident handles of the kind and flushes each of them once. -/
def rounds : List HandleType → List (List Handle) → List Event
  | t :: ts, hs :: hss => .handles t (.ok hs) :: (flushRound hs ++ rounds ts hss)
  | _, _ => []

/-! ## Lemmas on reading traces -/

@[simp] theorem res_isErr_ok {α : Type} (a : α) : (Res.ok a).isErr = false := rfl

@[simp] theorem res_isErr_err {α : Type} (e : GoError) : (Res.err e : Res α).isErr = true := rfl

@[simp] theorem writeRes_isErr_ok : WriteRes.ok.isErr = false := rfl

@[simp] theorem writeRes_isErr_err (e : GoError) (l : Residue) : (WriteRes.err e l).isErr = true := rfl

@[simp] theorem flushCmds_append (a b : List Event) :
    flushCmds (a ++ b) = flushCmds a ++ flushCmds b := by
  induction a with
  | nil => rfl
  | cons e a ih => cases e <;> simp [flushCmds, ih]

@[simp] theorem enumKinds_append (a b : List Event) :
    enumKinds (a ++ b) = enumKinds a ++ enumKinds b := by
  induction a with
  | nil => rfl
  | cons e a ih => cases e <;> simp [enumKinds, ih]

@[simp] theorem enumerated_append (a b : List Event) :
    enumerated (a ++ b) = enumerated a ++ enumerated b := by
  induction a with
  | nil => rfl
  | cons e a ih =>
    cases e with
    | handles t res => cases res <;> simp [enumerated, ih]
    | _ => simp [enumerated, ih]

@[simp] theorem closeIssued_append (a b : List Event) :
    closeIssued (a ++ b) = (closeIssued a || closeIssued b) := by
  induction a with
  | nil => rfl
  | cons e a ih => cases e <;> simp [closeIssued, ih]

@[simp] theorem writtenPaths_append (a b : List Event) :
    writtenPaths (a ++ b) = writtenPaths a ++ writtenPaths b := by
  induction a with
  | nil => rfl
  | cons e a ih => cases e <;> simp [writtenPaths, ih]

@[simp] theorem filesAfter_append {ι : Type} [DecidableEq ι] (resolve : String → ι)
    (fs : FileStore ι) (a b : List Event) :
    filesAfter resolve fs (a ++ b) = filesAfter resolve (filesAfter resolve fs a) b := by
  induction a generalizing fs with
  | nil => rfl
  | cons e a ih => simp [filesAfter, ih]

@[simp] theorem flushCmds_flushRound (hs : List Handle) : flushCmds (flushRound hs) = hs := by
  induction hs with
  | nil => rfl
  | cons h hs ih => simp [flushRound, flushCmds, ih]

@[simp] theorem enumKinds_flushRound (hs : List Handle) : enumKinds (flushRound hs) = [] := by
  induction hs with
  | nil => rfl
  | cons h hs ih => simp [flushRound, enumKinds, ih]

@[simp] theorem enumerated_flushRound (hs : List Handle) : enumerated (flushRound hs) = [] := by
  induction hs with
  | nil => rfl
  | cons h hs ih => simp [flushRound, enumerated, ih]

@[simp] theorem closeIssued_flushRound (hs : List Handle) : closeIssued (flushRound hs) = false := by
  induction hs with
  | nil => rfl
  | cons h hs ih => simp [flushRound, closeIssued, ih]

@[simp] theorem writtenPaths_flushRound (hs : List Handle) : writtenPaths (flushRound hs) = [] := by
  induction hs with
  | nil => rfl
  | cons h hs ih => simp [flushRound, writtenPaths, ih]

theorem failed_flushRound (hs : List Handle) : ∀ e ∈ flushRound hs, e.failed = false := by
  induction hs with
  | nil => simp [flushRound]
  | cons h hs ih =>
    intro e he
    simp only [flushRound, List.mem_cons] at he
    rcases he with rfl | rfl | he
    · rfl
    · rfl
    · exact ih e he

theorem enumerated_rounds (ts : List HandleType) (hss : List (List Handle))
    (hlen : hss.length = ts.length) : enumerated (rounds ts hss) = hss := by
  induction ts generalizing hss with
  | nil => cases hss <;> simp_all [rounds, enumerated]
  | cons t ts ih =>
    cases hss with
    | nil => simp at hlen
    | cons hs hss =>
      simp only [List.length_cons, add_left_inj] at hlen
      simp [rounds, enumerated, ih hss hlen]

theorem enumKinds_rounds (ts : List HandleType) (hss : List (List Handle))
    (hlen : hss.length = ts.length) : enumKinds (rounds ts hss) = ts := by
  induction ts generalizing hss with
  | nil => cases hss <;> simp_all [rounds, enumKinds]
  | cons t ts ih =>
    cases hss with
    | nil => simp at hlen
    | cons hs hss =>
      simp only [List.length_cons, add_left_inj] at hlen
      simp [rounds, enumKinds, ih hss hlen]

theorem flushCmds_rounds (ts : List HandleType) (hss : List (List Handle))
    (hlen : hss.length = ts.length) : flushCmds (rounds ts hss) = hss.flatten := by
  induction ts generalizing hss with
  | nil => cases hss <;> simp_all [rounds, flushCmds]
  | cons t ts ih =>
    cases hss with
    | nil => simp at hlen
    | cons hs hss =>
      simp only [List.length_cons, add_left_inj] at hlen
      simp [rounds, flushCmds, ih hss hlen]

theorem failed_rounds (ts : List HandleType) (hss : List (List Handle)) :
    ∀ e ∈ rounds ts hss, e.failed = false := by
  induction ts generalizing hss with
  | nil => cases hss <;> simp [rounds]
  | cons t ts ih =>
    cases hss with
    | nil => simp [rounds]
    | cons hs hss =>
      intro e he
      simp only [rounds, List.mem_cons, List.mem_append] at he
      rcases he with rfl | he | he
      · rfl
      · exact failed_flushRound hs e he
      · exact ih hss e he

theorem mem_rounds (ts : List HandleType) (hss : List (List Handle))
    (hlen : hss.length = ts.length) (hs : List Handle) (hhs : hs ∈ hss) (h : Handle) (hh : h ∈ hs) :
    ∃ t hs', t ∈ ts ∧ Event.handles t (.ok hs') ∈ rounds ts hss ∧ h ∈ hs' := by
  induction ts generalizing hss with
  | nil => cases hss <;> simp_all
  | cons t ts ih =>
    cases hss with
    | nil => simp at hlen
    | cons hs0 hss =>
      simp only [List.length_cons, add_left_inj] at hlen
      simp only [List.mem_cons] at hhs
      rcases hhs with rfl | hhs
      · exact ⟨t, hs, by simp, by simp [rounds], hh⟩
      · obtain ⟨t', hs', ht', hmem, hh'⟩ := ih hss hlen hhs
        exact ⟨t', hs', by simp [ht'], by simp [rounds, hmem], hh'⟩

theorem closeIssued_rounds (ts : List HandleType) (hss : List (List Handle)) :
    closeIssued (rounds ts hss) = false := by
  induction ts generalizing hss with
  | nil => cases hss <;> simp [rounds, closeIssued]
  | cons t ts ih =>
    cases hss with
    | nil => simp [rounds, closeIssued]
    | cons hs hss => simp [rounds, closeIssued, ih]

/-! ## The inner loop -/

theorem flushLoop_next {σ : Type} (E : Env σ) (hs : List Handle) (n : Nat) (w : σ) (m : Nat)
    (h : (flushLoop E hs n w).flow = .next m) :
    (flushLoop E hs n w).trace = flushRound hs ∧ m = n + hs.length := by
  induction hs generalizing n w with
  | nil => simp_all [flushLoop, flushRound]
  | cons a hs ih =>
    unfold flushLoop at h ⊢
    rcases hr : E.flushContext a w with ⟨r, w1⟩
    cases r with
    | some err => simp [hr] at h
    | none =>
      simp only [hr] at h ⊢
      obtain ⟨h1, h2⟩ := ih (n + 1) w1 h
      simp [h1, flushRound, h2]
      omega

theorem flushLoop_halt {σ : Type} (E : Env σ) (hs : List Handle) (n : Nat) (w : σ) (o : Outcome)
    (h : (flushLoop E hs n w).flow = .halt o) :
    o = .exit 1 ∧ ∃ done a e, (flushLoop E hs n w).trace
      = flushRound done ++ [.flushContext a (some e), .stderr (msgFlushError a e)] := by
  induction hs generalizing n w with
  | nil => simp [flushLoop] at h
  | cons a hs ih =>
    unfold flushLoop at h ⊢
    rcases hr : E.flushContext a w with ⟨r, w1⟩
    cases r with
    | some err =>
      simp only [hr] at h ⊢
      refine ⟨by simpa using h.symm, [], a, err, by simp [flushRound]⟩
    | none =>
      simp only [hr] at h ⊢
      obtain ⟨h1, done, b, e, h2⟩ := ih (n + 1) w1 h
      exact ⟨h1, a :: done, b, e, by simp [h2, flushRound]⟩

/-! ## The janitor loop -/

theorem janitor_next {σ : Type} (E : Env σ) (p : String) (ts : List HandleType) (n : Nat) (w : σ)
    (m : Nat) (h : (janitor E p ts n w).flow = .next m) :
    ∃ hss : List (List Handle), hss.length = ts.length ∧
      (janitor E p ts n w).trace = rounds ts hss ∧ m = n + hss.flatten.length := by
  induction ts generalizing n w with
  | nil => exact ⟨[], by simp_all [janitor, rounds]⟩
  | cons t ts ih =>
    unfold janitor at h ⊢
    rcases hr : E.handles t w with ⟨r, w1⟩
    cases r with
    | err e => simp [hr] at h
    | ok hs =>
      simp only [hr] at h ⊢
      rcases hf : flushLoop E hs n w1 with ⟨f, w2, tr⟩
      have hfl := flushLoop_next E hs n w1
      have htr : (flushLoop E hs n w1).trace = tr := by rw [hf]
      cases f with
      | halt o => simp [hf] at h
      | next k =>
        simp only [hf] at h ⊢
        obtain ⟨hss, hlen, hshape, hm⟩ := ih k w2 h
        obtain ⟨h1, h2⟩ := hfl k (by rw [hf])
        refine ⟨hs :: hss, by simp [hlen], ?_, ?_⟩
        · simp [rounds, hshape, ← htr, h1]
        · simp only [List.flatten_cons, List.length_append]
          omega

theorem janitor_halt {σ : Type} (E : Env σ) (p : String) (ts : List HandleType) (n : Nat) (w : σ)
    (o : Outcome) (h : (janitor E p ts n w).flow = .halt o) :
    o = .exit 1 ∧ ∃ before ev msg,
      (janitor E p ts n w).trace = before ++ [ev, .stderr msg] ∧
      (∀ x ∈ before, x.failed = false) ∧ closeIssued before = false ∧
      writtenPaths before = [] ∧
      ((∃ t e, ev = .handles t (.err e) ∧ msg = msgHandles p e) ∨
       (∃ a e, ev = .flushContext a (some e) ∧ msg = msgFlushError a e)) := by
  induction ts generalizing n w with
  | nil => simp [janitor] at h
  | cons t ts ih =>
    unfold janitor at h ⊢
    rcases hr : E.handles t w with ⟨r, w1⟩
    cases r with
    | err e =>
      simp only [hr] at h ⊢
      exact ⟨by simpa using h.symm, [], _, _, by simp, by simp, rfl, rfl, Or.inl ⟨t, e, rfl, rfl⟩⟩
    | ok hs =>
      simp only [hr] at h ⊢
      rcases hf : flushLoop E hs n w1 with ⟨f, w2, tr⟩
      have htr : (flushLoop E hs n w1).trace = tr := by rw [hf]
      cases f with
      | halt o2 =>
        simp only [hf] at h ⊢
        obtain ⟨h1, done, a, e, h2⟩ := flushLoop_halt E hs n w1 o2 (by rw [hf])
        have ho : o = o2 := by simpa using h.symm
        refine ⟨ho.trans h1, .handles t (.ok hs) :: flushRound done, _, _, ?_, ?_, ?_, ?_,
          Or.inr ⟨a, e, rfl, rfl⟩⟩
        · simp [← htr, h2]
        · intro x hx
          simp only [List.mem_cons] at hx
          rcases hx with rfl | hx
          · rfl
          · exact failed_flushRound done x hx
        · simp [closeIssued]
        · simp [writtenPaths]
      | next k =>
        simp only [hf] at h ⊢
        obtain ⟨h1, h2⟩ := flushLoop_next E hs n w1 k (by rw [hf])
        obtain ⟨ho, before, ev, msg, hshape, hok, hcl, hwp, hev⟩ := ih k w2 h
        refine ⟨ho, .handles t (.ok hs) :: (flushRound hs ++ before), ev, msg, ?_, ?_, ?_, ?_, hev⟩
        · simp [hshape, ← htr, h1]
        · intro x hx
          simp only [List.mem_cons, List.mem_append] at hx
          rcases hx with rfl | hx | hx
          · rfl
          · exact failed_flushRound hs x hx
          · exact hok x hx
        · simp [closeIssued, hcl]
        · simp [writtenPaths, hwp]

/-- The janitor runs to its end exactly when none of its calls fails. -/
theorem janitor_next_iff {σ : Type} (E : Env σ) (p : String) (ts : List HandleType) (n : Nat)
    (w : σ) :
    (∃ m, (janitor E p ts n w).flow = .next m) ↔
      ∀ e ∈ (janitor E p ts n w).trace, e.failed = false := by
  constructor
  · rintro ⟨m, hm⟩
    obtain ⟨hss, _, hshape, _⟩ := janitor_next E p ts n w m hm
    rw [hshape]
    exact failed_rounds ts hss
  · intro hall
    cases hfl : (janitor E p ts n w).flow with
    | next m => exact ⟨m, rfl⟩
    | halt o =>
      obtain ⟨_, before, ev, msg, hshape, _, _, _, hev⟩ := janitor_halt E p ts n w o hfl
      have hmem : ev ∈ (janitor E p ts n w).trace := by simp [hshape]
      have := hall ev hmem
      rcases hev with ⟨t, e, rfl, _⟩ | ⟨a, e, rfl, _⟩ <;> simp [Event.failed] at this

/-! ## How `main` is put together -/

theorem main_eq {σ : Type} (E : Env σ) (L : Lib) (flags : Flags) (w : σ)
    (hopen : (E.openTPM flags.tpmPath w).1 = none) :
    main E L flags w =
      match (janitorOf E flags w).flow with
      | .halt o => ⟨o, (janitorOf E flags w).world, .openTPM flags.tpmPath none :: (janitorOf E flags w).trace⟩
      | .next _ =>
        match (provisionOf E flags w).flow with
        | .halt o => ⟨o, (provisionOf E flags w).world,
            .openTPM flags.tpmPath none :: ((janitorOf E flags w).trace ++ (provisionOf E flags w).trace)⟩
        | .next _ => ⟨(signVerifyOf E L flags w).outcome, (signVerifyOf E L flags w).world,
            .openTPM flags.tpmPath none :: ((janitorOf E flags w).trace ++ (provisionOf E flags w).trace
              ++ (signVerifyOf E L flags w).trace)⟩ := by
  unfold main signVerifyOf provisionOf janitorOf
  rcases ho : E.openTPM flags.tpmPath w with ⟨r, w1⟩
  rw [ho] at hopen
  simp only at hopen
  subst hopen
  simp only
  rcases hj : janitor E flags.tpmPath (handleNames flags.flush) 0 w1 with ⟨f, w2, tr⟩
  cases f with
  | halt o => rfl
  | next k =>
    simp only
    rcases hp : provision E flags w2 with ⟨f3, w3, tr3⟩
    cases f3 <;> rfl

/-! ## Provisioning -/

theorem provision_head {σ : Type} (E : Env σ) (flags : Flags) (w : σ) :
    ∃ rest, (provision E flags w).trace =
      .createPrimary HandleOwner { hash := .sha256, pcrs := [0] } emptyPassword emptyPassword
        defaultKeyParams
        (E.createPrimary HandleOwner { hash := .sha256, pcrs := [0] } emptyPassword emptyPassword
          defaultKeyParams w).1 :: rest := by
  unfold provision
  simp only
  split
  · next err w1 heq =>
    rw [heq]
    exact ⟨_, rfl⟩
  · next pkh w1 heq =>
    rw [heq]
    repeat' split
    all_goals exact ⟨_, rfl⟩

theorem provision_ok {σ : Type} (E : Env σ) (flags : Flags) (w : σ)
    (hok : ∀ e ∈ (provision E flags w).trace, e.failed = false) :
    ∃ pkh pkhBytes privInternal pubArea newHandle ekhBytes,
      (provision E flags w).trace =
        [.createPrimary HandleOwner { hash := .sha256, pcrs := [0] } emptyPassword emptyPassword
            defaultKeyParams (.ok pkh),
         .contextSave pkh (.ok pkhBytes),
         .writeFile flags.primaryHandle pkhBytes 0o644 .ok,
         .createKey pkh { hash := .sha256, pcrs := [0] } defaultPassword defaultPassword
            rsaKeyParams (.ok (privInternal, pubArea)),
         .load pkh defaultPassword pubArea privInternal (.ok newHandle),
         .flushContext pkh none,
         .contextSave newHandle (.ok ekhBytes),
         .writeFile flags.keyHandle ekhBytes 0o644 .ok,
         .flushContext newHandle none,
         .close none] ∧ (provision E flags w).flow = .next () := by
  unfold provision at hok ⊢
  simp only at hok ⊢
  repeat' split at hok
  all_goals simp [Event.failed] at hok
  simp only [hok.1, hok.2, and_true]
  exact ⟨_, _, _, _, _, _, rfl⟩

theorem main_of_janitor_halt {σ : Type} (E : Env σ) (L : Lib) (flags : Flags) (w : σ)
    (hopen : (E.openTPM flags.tpmPath w).1 = none) (o : Outcome)
    (hj : (janitorOf E flags w).flow = .halt o) :
    (main E L flags w).outcome = o ∧
      (main E L flags w).trace = .openTPM flags.tpmPath none :: (janitorOf E flags w).trace := by
  rw [main_eq E L flags w hopen, hj]
  exact ⟨rfl, rfl⟩

theorem main_of_janitor_next {σ : Type} (E : Env σ) (L : Lib) (flags : Flags) (w : σ)
    (hopen : (E.openTPM flags.tpmPath w).1 = none) (m : Nat)
    (hj : (janitorOf E flags w).flow = .next m) :
    ∃ rest, (main E L flags w).trace =
      .openTPM flags.tpmPath none :: ((janitorOf E flags w).trace ++
        .createPrimary HandleOwner { hash := .sha256, pcrs := [0] } emptyPassword emptyPassword
          defaultKeyParams
          (E.createPrimary HandleOwner { hash := .sha256, pcrs := [0] } emptyPassword emptyPassword
            defaultKeyParams (janitorOf E flags w).world).1 :: rest) := by
  obtain ⟨rest, hrest⟩ := provision_head E flags (janitorOf E flags w).world
  rw [main_eq E L flags w hopen, hj]
  simp only
  cases hp : (provisionOf E flags w).flow with
  | halt o =>
    refine ⟨rest, ?_⟩
    simp only [provisionOf] at hp ⊢
    rw [hrest]
  | next u =>
    refine ⟨rest ++ (signVerifyOf E L flags w).trace, ?_⟩
    simp only [provisionOf] at hp ⊢
    rw [hrest]
    simp

theorem janitor_of_empty {σ : Type} (E : Env σ) (p : String) (ts : List HandleType) (n : Nat)
    (w : σ) (hempty : ∀ t r, Event.handles t r ∈ (janitor E p ts n w).trace → r = .ok []) :
    (janitor E p ts n w).trace = ts.map (fun t => Event.handles t (.ok [])) ∧
      (janitor E p ts n w).flow = .next n := by
  induction ts generalizing n w with
  | nil => simp [janitor]
  | cons t ts ih =>
    unfold janitor at hempty ⊢
    rcases hr : E.handles t w with ⟨r, w1⟩
    cases r with
    | err e =>
      simp only [hr] at hempty
      have := hempty t (.err e) (by simp)
      simp at this
    | ok hs =>
      simp only [hr] at hempty ⊢
      have hnil : hs = [] := by
        rcases hf : flushLoop E hs n w1 with ⟨f, w2, tr⟩
        cases f with
        | halt o =>
          simp only [hf] at hempty
          simpa using hempty t (.ok hs) (by simp)
        | next k =>
          simp only [hf] at hempty
          simpa using hempty t (.ok hs) (by simp)
      subst hnil
      simp only [flushLoop] at hempty ⊢
      obtain ⟨h1, h2⟩ := ih n w1 (fun t r hm => hempty t r (by simp [hm]))
      simp [h1, h2]

/-- The text of the flush error names the handle as `fmt` prints it. -/
theorem msgFlushError_names_handle (h : Handle) (e : GoError) :
    ("0x" ++ hex h).data <:+: (msgFlushError h e).data := by
  refine ⟨"Error flushing handle ".data, (": " ++ e.msg ++ "\n").data, ?_⟩
  simp only [msgFlushError, String.data_append, List.append_assoc]
  rfl

/-! ## Properties of the janitor -/

/-- C1. Scope of the janitor: when the device opens and no enumeration or
flush of the janitor loop fails, the loop asks `client.Handles` for exactly
the kinds `handleNames` gives for the `-flush` value, in that order, and after
each enumeration flushes each returned handle once, in the order returned; so
the `FlushContext` commands are the returned lists one after another, every
flushed handle was returned for a selected kind, and `main` goes on to
`CreatePrimary`. -/
theorem janitor_flushes_selected_kinds {σ : Type} (E : Env σ) (L : Lib) (flags : Flags) (w : σ)
    (hopen : (E.openTPM flags.tpmPath w).1 = none)
    (hok : ∀ e ∈ (janitorOf E flags w).trace, e.failed = false) :
    (enumerated (janitorOf E flags w).trace).length = (handleNames flags.flush).length ∧
    (janitorOf E flags w).trace
      = rounds (handleNames flags.flush) (enumerated (janitorOf E flags w).trace) ∧
    enumKinds (janitorOf E flags w).trace = handleNames flags.flush ∧
    flushCmds (janitorOf E flags w).trace = (enumerated (janitorOf E flags w).trace).flatten ∧
    (∀ h ∈ flushCmds (janitorOf E flags w).trace, ∃ t hs, t ∈ handleNames flags.flush ∧
      Event.handles t (.ok hs) ∈ (janitorOf E flags w).trace ∧ h ∈ hs) ∧
    (flags.flush = "all" →
      enumKinds (janitorOf E flags w).trace = [.loadedSession, .savedSession, .transient]) ∧
    (flags.flush = "loaded" → enumKinds (janitorOf E flags w).trace = [.loadedSession]) ∧
    (flags.flush = "saved" → enumKinds (janitorOf E flags w).trace = [.savedSession]) ∧
    (flags.flush = "transient" → enumKinds (janitorOf E flags w).trace = [.transient]) ∧
    ∃ res rest, (main E L flags w).trace =
      .openTPM flags.tpmPath none :: ((janitorOf E flags w).trace ++
        .createPrimary HandleOwner { hash := .sha256, pcrs := [0] } emptyPassword emptyPassword
          defaultKeyParams res :: rest) := by
  obtain ⟨m, hm⟩ := (janitor_next_iff E flags.tpmPath (handleNames flags.flush) 0
    (E.openTPM flags.tpmPath w).2).mpr hok
  obtain ⟨hss, hlen, hshape, -⟩ := janitor_next E flags.tpmPath (handleNames flags.flush) 0
    (E.openTPM flags.tpmPath w).2 m hm
  have htr : (janitorOf E flags w).trace = rounds (handleNames flags.flush) hss := hshape
  have hen : enumerated (janitorOf E flags w).trace = hss := by
    rw [htr, enumerated_rounds _ _ hlen]
  have hkinds : enumKinds (janitorOf E flags w).trace = handleNames flags.flush := by
    rw [htr, enumKinds_rounds _ _ hlen]
  have hfl : flushCmds (janitorOf E flags w).trace = hss.flatten := by
    rw [htr, flushCmds_rounds _ _ hlen]
  refine ⟨by rw [hen, hlen], by rw [hen, htr], hkinds, by rw [hen, hfl], ?_, ?_, ?_, ?_, ?_, ?_⟩
  · intro h hh
    rw [hfl] at hh
    obtain ⟨hs, hhs, hmem⟩ := List.mem_flatten.mp hh
    rw [htr]
    exact mem_rounds (handleNames flags.flush) hss hlen hs hhs h hmem
  · intro hsel
    rw [hkinds, hsel]
    rfl
  · intro hsel
    rw [hkinds, hsel]
    rfl
  · intro hsel
    rw [hkinds, hsel]
    rfl
  · intro hsel
    rw [hkinds, hsel]
    rfl
  · obtain ⟨rest, hrest⟩ := main_of_janitor_next E L flags w hopen m hm
    exact ⟨_, rest, hrest⟩

/-- C1, on the scenario of the contract: flush scope `transient`, three stale
transient handles and two saved sessions resident. -/
theorem janitor_flushes_selected_kinds_witness :
    ((simEnv noFault).openTPM transientFlags.tpmPath simStale).1 = none ∧
    (∀ e ∈ (janitorOf (simEnv noFault) transientFlags simStale).trace, e.failed = false) ∧
    flushCmds (janitorOf (simEnv noFault) transientFlags simStale).trace
      = (enumerated (janitorOf (simEnv noFault) transientFlags simStale).trace).flatten ∧
    flushCmds (janitorOf (simEnv noFault) transientFlags simStale).trace
      = [0x80000000, 0x80000001, 0x80000002] ∧
    (janitorOf (simEnv noFault) transientFlags simStale).world.saved = [0x03000000, 0x03000001] :=
  ⟨by decide, by decide,
    (janitor_flushes_selected_kinds (simEnv noFault) simLib transientFlags simStale
      (by decide) (by decide)).2.2.2.1,
    by decide, by decide⟩

/-- C5. Janitor failures are fatal and name the handle: when the device opens
and a call of the janitor loop fails (an enumeration or a flush), `main` ends
with exit status 1, the failed call is its last call, followed only by one
message on standard error, no file is written in the run, and for a failed
flush the message holds the number of the handle. -/
theorem janitor_failure_is_fatal {σ : Type} (E : Env σ) (L : Lib) (flags : Flags) (w : σ)
    (hopen : (E.openTPM flags.tpmPath w).1 = none)
    (ev : Event) (hev : ev ∈ (janitorOf E flags w).trace) (hfail : ev.failed = true) :
    (main E L flags w).outcome = .exit 1 ∧
    writtenPaths (main E L flags w).trace = [] ∧
    ∃ before msg, (main E L flags w).trace = before ++ [ev, .stderr msg] ∧
      (∀ x ∈ before, x.failed = false) ∧
      ((∃ t e, ev = .handles t (.err e) ∧ msg = msgHandles flags.tpmPath e) ∨
       (∃ h e, ev = .flushContext h (some e) ∧ msg = msgFlushError h e ∧
          ("0x" ++ hex h).data <:+: msg.data)) := by
  cases hfl : (janitorOf E flags w).flow with
  | next m =>
    have := (janitor_next_iff E flags.tpmPath (handleNames flags.flush) 0
      (E.openTPM flags.tpmPath w).2).mp ⟨m, hfl⟩ ev hev
    rw [this] at hfail
    exact absurd hfail (by simp)
  | halt o =>
    obtain ⟨ho, before, ev', msg, hshape, hbefore, -, hwp, hcase⟩ :=
      janitor_halt E flags.tpmPath (handleNames flags.flush) 0 (E.openTPM flags.tpmPath w).2 o hfl
    have htr : (janitorOf E flags w).trace = before ++ [ev', .stderr msg] := hshape
    obtain ⟨hout, hmain⟩ := main_of_janitor_halt E L flags w hopen o hfl
    have hev' : ev = ev' := by
      rw [htr] at hev
      simp only [List.mem_append, List.mem_cons, List.mem_singleton, List.not_mem_nil,
        or_false] at hev
      rcases hev with hb | rfl | rfl
      · rw [hbefore ev hb] at hfail
        exact absurd hfail (by simp)
      · rfl
      · simp [Event.failed] at hfail
    subst hev'
    have hwpe : writtenPaths [ev, Event.stderr msg] = [] := by
      rcases hcase with ⟨t, e, rfl, -⟩ | ⟨a, e, rfl, -⟩ <;> rfl
    refine ⟨hout.trans ho, ?_, .openTPM flags.tpmPath none :: before, msg, ?_, ?_, ?_⟩
    · rw [hmain, htr]
      simp [writtenPaths, hwp, hwpe]
    · rw [hmain, htr]
      rfl
    · intro x hx
      simp only [List.mem_cons] at hx
      rcases hx with rfl | hx
      · rfl
      · exact hbefore x hx
    · rcases hcase with ⟨t, e, rfl, rfl⟩ | ⟨a, e, rfl, rfl⟩
      · exact Or.inl ⟨t, e, rfl, rfl⟩
      · exact Or.inr ⟨a, e, rfl, rfl, msgFlushError_names_handle a e⟩

/-- C5, on a run in which the flush of the second of three stale transient
handles fails. -/
theorem janitor_failure_is_fatal_witness :
    ((simEnv (faultAt 3)).openTPM transientFlags.tpmPath simStale).1 = none ∧
    Event.flushContext 0x80000001 (some simError)
      ∈ (janitorOf (simEnv (faultAt 3)) transientFlags simStale).trace ∧
    (main (simEnv (faultAt 3)) simLib transientFlags simStale).outcome = .exit 1 :=
  ⟨by decide, by decide,
    (janitor_failure_is_fatal (simEnv (faultAt 3)) simLib transientFlags simStale (by decide)
      (.flushContext 0x80000001 (some simError)) (by decide) (by decide)).1⟩

/-- C7. Zero matches is a no-op: when the device opens and every enumeration
of the janitor loop returns the empty list, the loop does nothing but the
enumerations of the selected kinds (no flush, no error, no message), runs to
its end with the counter unchanged, and the next command of `main` is
`CreatePrimary`. -/
theorem janitor_zero_matches_noop {σ : Type} (E : Env σ) (L : Lib) (flags : Flags) (w : σ)
    (hopen : (E.openTPM flags.tpmPath w).1 = none)
    (hempty : ∀ t r, Event.handles t r ∈ (janitorOf E flags w).trace → r = .ok []) :
    (janitorOf E flags w).trace
      = (handleNames flags.flush).map (fun t => Event.handles t (.ok [])) ∧
    flushCmds (janitorOf E flags w).trace = [] ∧
    (∀ e ∈ (janitorOf E flags w).trace, e.failed = false ∧ e.isOutput = false) ∧
    (janitorOf E flags w).flow = .next 0 ∧
    ∃ res rest, (main E L flags w).trace =
      .openTPM flags.tpmPath none :: ((janitorOf E flags w).trace ++
        .createPrimary HandleOwner { hash := .sha256, pcrs := [0] } emptyPassword emptyPassword
          defaultKeyParams res :: rest) := by
  obtain ⟨htr, hflow⟩ := janitor_of_empty E flags.tpmPath (handleNames flags.flush) 0
    (E.openTPM flags.tpmPath w).2 hempty
  have htr' : (janitorOf E flags w).trace
      = (handleNames flags.flush).map (fun t => Event.handles t (.ok [])) := htr
  have hflow' : (janitorOf E flags w).flow = .next 0 := hflow
  refine ⟨htr', ?_, ?_, hflow', ?_⟩
  · rw [htr']
    generalize handleNames flags.flush = ts
    induction ts with
    | nil => rfl
    | cons t ts ih => simpa [flushCmds] using ih
  · intro e he
    rw [htr'] at he
    obtain ⟨t, -, rfl⟩ := List.mem_map.mp he
    exact ⟨rfl, rfl⟩
  · obtain ⟨rest, hrest⟩ := main_of_janitor_next E L flags w hopen 0 hflow'
    exact ⟨_, rest, hrest⟩

/-- C7, on an empty TPM with the default flush scope `all`. -/
theorem janitor_zero_matches_noop_witness :
    ((simEnv noFault).openTPM defaultFlags.tpmPath simEmpty).1 = none ∧
    (janitorOf (simEnv noFault) defaultFlags simEmpty).trace
      = [.handles .loadedSession (.ok []), .handles .savedSession (.ok []),
         .handles .transient (.ok [])] ∧
    flushCmds (janitorOf (simEnv noFault) defaultFlags simEmpty).trace = [] :=
  have hempty : ∀ t r, Event.handles t r ∈ (janitorOf (simEnv noFault) defaultFlags simEmpty).trace
      → r = .ok [] := by
    intro t r h
    have htr : (janitorOf (simEnv noFault) defaultFlags simEmpty).trace
        = [.handles .loadedSession (.ok []), .handles .savedSession (.ok []),
           .handles .transient (.ok [])] := by decide
    rw [htr] at h
    simp only [List.mem_cons, Event.handles.injEq, List.mem_singleton, List.not_mem_nil,
      or_false] at h
    rcases h with ⟨-, rfl⟩ | ⟨-, rfl⟩ | ⟨-, rfl⟩ <;> rfl
  ⟨by decide, by decide,
    (janitor_zero_matches_noop (simEnv noFault) simLib defaultFlags simEmpty (by decide) hempty).2.1⟩

/-- C10. Unknown flush selector: when the device opens and the `-flush` value
is none of `all`, `loaded`, `saved`, `transient`, the janitor loop does
nothing at all (no enumeration, no flush, no message, no exit), and the first
call of `main` after `OpenTPM` is `CreatePrimary`, made in the world
`OpenTPM` left. -/
theorem unknown_selector_skips_janitor {σ : Type} (E : Env σ) (L : Lib) (flags : Flags) (w : σ)
    (hopen : (E.openTPM flags.tpmPath w).1 = none)
    (hsel : flags.flush ∉ ["all", "loaded", "saved", "transient"]) :
    handleNames flags.flush = [] ∧
    (janitorOf E flags w).trace = [] ∧
    (janitorOf E flags w).flow = .next 0 ∧
    (janitorOf E flags w).world = (E.openTPM flags.tpmPath w).2 ∧
    ∃ rest, (main E L flags w).trace =
      .openTPM flags.tpmPath none ::
        .createPrimary HandleOwner { hash := .sha256, pcrs := [0] } emptyPassword emptyPassword
          defaultKeyParams
          (E.createPrimary HandleOwner { hash := .sha256, pcrs := [0] } emptyPassword emptyPassword
            defaultKeyParams (E.openTPM flags.tpmPath w).2).1 :: rest := by
  simp only [List.mem_cons, List.mem_singleton, List.not_mem_nil, or_false, not_or] at hsel
  obtain ⟨h1, h2, h3, h4⟩ := hsel
  have hnames : handleNames flags.flush = [] := by simp [handleNames, h1, h2, h3, h4]
  have hj : janitorOf E flags w = ⟨.next 0, (E.openTPM flags.tpmPath w).2, []⟩ := by
    simp [janitorOf, hnames, janitor]
  refine ⟨hnames, by rw [hj], by rw [hj], by rw [hj], ?_⟩
  obtain ⟨rest, hrest⟩ := main_of_janitor_next E L flags w hopen 0 (by rw [hj])
  rw [hj] at hrest
  exact ⟨rest, by simpa using hrest⟩

/-- C10, on a TPM holding stale handles, with `-flush none`. -/
theorem unknown_selector_skips_janitor_witness :
    ((simEnv noFault).openTPM unknownFlags.tpmPath simStale).1 = none ∧
    unknownFlags.flush ∉ ["all", "loaded", "saved", "transient"] ∧
    (janitorOf (simEnv noFault) unknownFlags simStale).trace = [] ∧
    (janitorOf (simEnv noFault) unknownFlags simStale).world.transient
      = [0x80000000, 0x80000001, 0x80000002] :=
  ⟨by decide, by decide,
    (unknown_selector_skips_janitor (simEnv noFault) simLib unknownFlags simStale (by decide)
      (by decide)).2.1,
    by decide⟩

/-! ## Lemmas on the blocks of `main` -/

theorem closeIssued_false_iff (tr : List Event) :
    closeIssued tr = false ↔ ∀ r, Event.close r ∉ tr := by
  induction tr with
  | nil => simp [closeIssued]
  | cons e tr ih =>
    cases e with
    | close r =>
      simp only [closeIssued]
      constructor
      · intro h
        cases h
      · intro h
        exact absurd (List.mem_cons_self _ _) (h r)
    | _ => simp_all [closeIssued]

theorem closeIssued_janitor {σ : Type} (E : Env σ) (p : String) (ts : List HandleType) (n : Nat)
    (w : σ) : closeIssued (janitor E p ts n w).trace = false := by
  cases hfl : (janitor E p ts n w).flow with
  | next m =>
    obtain ⟨hss, -, hshape, -⟩ := janitor_next E p ts n w m hfl
    rw [hshape, closeIssued_rounds]
  | halt o =>
    obtain ⟨-, before, ev, msg, hshape, -, hcl, -, hcase⟩ := janitor_halt E p ts n w o hfl
    rw [hshape]
    rcases hcase with ⟨t, e, rfl, -⟩ | ⟨a, e, rfl, -⟩ <;> simp [closeIssued, hcl]

theorem writtenPaths_rounds (ts : List HandleType) (hss : List (List Handle)) :
    writtenPaths (rounds ts hss) = [] := by
  induction ts generalizing hss with
  | nil => cases hss <;> simp [rounds, writtenPaths]
  | cons t ts ih =>
    cases hss with
    | nil => simp [rounds, writtenPaths]
    | cons hs hss => simp [rounds, writtenPaths, ih]

theorem writtenPaths_janitor {σ : Type} (E : Env σ) (p : String) (ts : List HandleType) (n : Nat)
    (w : σ) : writtenPaths (janitor E p ts n w).trace = [] := by
  cases hfl : (janitor E p ts n w).flow with
  | next m =>
    obtain ⟨hss, -, hshape, -⟩ := janitor_next E p ts n w m hfl
    rw [hshape, writtenPaths_rounds]
  | halt o =>
    obtain ⟨-, before, ev, msg, hshape, -, -, hwp, hcase⟩ := janitor_halt E p ts n w o hfl
    rw [hshape]
    rcases hcase with ⟨t, e, rfl, -⟩ | ⟨a, e, rfl, -⟩ <;> simp [writtenPaths, hwp]

/-- Every event of the inner loop is a flush or a message. -/
theorem flushLoop_alphabet {σ : Type} (E : Env σ) (hs : List Handle) (n : Nat) (w : σ) :
    ∀ x ∈ (flushLoop E hs n w).trace,
      (∃ t r, x = Event.handles t r) ∨ (∃ h r, x = Event.flushContext h r) ∨
      (∃ h, x = Event.stdout (msgFlushed h)) ∨ (∃ m, x = Event.stderr m) := by
  induction hs generalizing n w with
  | nil => simp [flushLoop]
  | cons a hs ihs =>
    unfold flushLoop
    rcases hq : E.flushContext a w with ⟨q, w2⟩
    cases q with
    | some err =>
      intro x hx
      simp only [List.mem_cons, List.mem_singleton, List.not_mem_nil, or_false] at hx
      rcases hx with rfl | rfl
      · exact Or.inr (Or.inl ⟨_, _, rfl⟩)
      · exact Or.inr (Or.inr (Or.inr ⟨_, rfl⟩))
    | none =>
      intro x hx
      simp only [List.mem_cons] at hx
      rcases hx with rfl | rfl | hx
      · exact Or.inr (Or.inl ⟨_, _, rfl⟩)
      · exact Or.inr (Or.inr (Or.inl ⟨_, rfl⟩))
      · exact ihs _ _ x hx

/-- Every event of the janitor loop is an enumeration, a flush or a message. -/
theorem janitor_alphabet {σ : Type} (E : Env σ) (p : String) (ts : List HandleType) (n : Nat)
    (w : σ) : ∀ x ∈ (janitor E p ts n w).trace,
      (∃ t r, x = Event.handles t r) ∨ (∃ h r, x = Event.flushContext h r) ∨
      (∃ h, x = Event.stdout (msgFlushed h)) ∨ (∃ m, x = Event.stderr m) := by
  induction ts generalizing n w with
  | nil => simp [janitor]
  | cons t ts ih =>
    unfold janitor
    rcases hr : E.handles t w with ⟨r, w1⟩
    cases r with
    | err e =>
      intro x hx
      simp only [List.mem_cons, List.mem_singleton, List.not_mem_nil, or_false] at hx
      rcases hx with rfl | rfl
      · exact Or.inl ⟨_, _, rfl⟩
      · exact Or.inr (Or.inr (Or.inr ⟨_, rfl⟩))
    | ok hs =>
      simp only
      have hfl := flushLoop_alphabet E hs n w1
      rcases hf : flushLoop E hs n w1 with ⟨f, w2, tr⟩
      rw [hf] at hfl
      cases f with
      | halt o =>
        intro x hx
        simp only [List.mem_cons] at hx
        rcases hx with rfl | hx
        · exact Or.inl ⟨_, _, rfl⟩
        · exact hfl x hx
      | next k =>
        intro x hx
        simp only [List.mem_cons, List.mem_append] at hx
        rcases hx with rfl | hx | hx
        · exact Or.inl ⟨_, _, rfl⟩
        · exact hfl x hx
        · exact ih k w2 x hx

/-- The signing block makes no call to the device or to storage. -/
theorem signVerify_no_deviceOp {σ : Type} (E : Env σ) (L : Lib) (flags : Flags) (w : σ) :
    ∀ x ∈ (signVerify E L flags w).trace, x.isDeviceOp = false := by
  unfold signVerify
  simp only
  repeat' split
  all_goals simp [Event.isDeviceOp]

theorem closeIssued_of_no_deviceOp (tr : List Event) (h : ∀ x ∈ tr, x.isDeviceOp = false) :
    closeIssued tr = false := by
  induction tr with
  | nil => rfl
  | cons e tr ih =>
    have he := h e (by simp)
    have := ih (fun x hx => h x (by simp [hx]))
    cases e <;> simp_all [closeIssued, Event.isDeviceOp]

theorem writtenPaths_of_no_deviceOp (tr : List Event) (h : ∀ x ∈ tr, x.isDeviceOp = false) :
    writtenPaths tr = [] := by
  induction tr with
  | nil => rfl
  | cons e tr ih =>
    have he := h e (by simp)
    have := ih (fun x hx => h x (by simp [hx]))
    cases e <;> simp_all [writtenPaths, Event.isDeviceOp]

/-- Provisioning reaches `Close` exactly when none of the calls it tests
fails. -/
theorem provision_close_iff {σ : Type} (E : Env σ) (flags : Flags) (w : σ) :
    closeIssued (provision E flags w).trace = true ↔
      ∀ e ∈ (provision E flags w).trace, e.isProvisionCheck = true → e.failed = false := by
  unfold provision
  simp only
  repeat' split
  all_goals simp [closeIssued, Event.isProvisionCheck, Event.failed]

theorem janitor_not_check {σ : Type} (E : Env σ) (p : String) (ts : List HandleType) (n : Nat)
    (w : σ) : ∀ x ∈ (janitor E p ts n w).trace, x.isProvisionCheck = false := by
  intro x hx
  rcases janitor_alphabet E p ts n w x hx with ⟨t, r, rfl⟩ | ⟨h, r, rfl⟩ | ⟨h, rfl⟩ | ⟨m, rfl⟩ <;> rfl

theorem janitor_failed_of_deviceOp {σ : Type} (E : Env σ) (p : String) (ts : List HandleType)
    (n : Nat) (w : σ)
    (h : ∀ x ∈ (janitor E p ts n w).trace, x.isDeviceOp = true → x.failed = false) :
    ∀ x ∈ (janitor E p ts n w).trace, x.failed = false := by
  intro x hx
  rcases janitor_alphabet E p ts n w x hx with ⟨t, r, rfl⟩ | ⟨a, r, rfl⟩ | ⟨a, rfl⟩ | ⟨m, rfl⟩
  · exact h _ hx rfl
  · exact h _ hx rfl
  · rfl
  · rfl

theorem not_check_of_no_deviceOp (x : Event) (h : x.isDeviceOp = false) :
    x.isProvisionCheck = false := by
  cases x <;> simp_all [Event.isDeviceOp, Event.isProvisionCheck]

theorem janitor_sub_main {σ : Type} (E : Env σ) (L : Lib) (flags : Flags) (w : σ)
    (hopen : (E.openTPM flags.tpmPath w).1 = none) :
    ∀ x ∈ (janitorOf E flags w).trace, x ∈ (main E L flags w).trace := by
  intro x hx
  rw [main_eq E L flags w hopen]
  cases (janitorOf E flags w).flow with
  | halt o => simp [hx]
  | next m =>
    simp only
    cases (provisionOf E flags w).flow <;> simp [hx]

theorem provision_sub_main {σ : Type} (E : Env σ) (L : Lib) (flags : Flags) (w : σ)
    (hopen : (E.openTPM flags.tpmPath w).1 = none) (m : Nat)
    (hj : (janitorOf E flags w).flow = .next m) :
    ∀ x ∈ (provisionOf E flags w).trace, x ∈ (main E L flags w).trace := by
  intro x hx
  rw [main_eq E L flags w hopen, hj]
  simp only
  cases (provisionOf E flags w).flow <;> simp [hx]

/-- The shape of a provisioning run in which no call to the device or to
storage fails. -/
theorem provision_ok_of_deviceOp {σ : Type} (E : Env σ) (flags : Flags) (w : σ)
    (hok : ∀ e ∈ (provision E flags w).trace, e.isDeviceOp = true → e.failed = false) :
    ∃ pkh pkhBytes privInternal pubArea newHandle ekhBytes,
      (provision E flags w).trace =
        [.createPrimary HandleOwner { hash := .sha256, pcrs := [0] } emptyPassword emptyPassword
            defaultKeyParams (.ok pkh),
         .contextSave pkh (.ok pkhBytes),
         .writeFile flags.primaryHandle pkhBytes 0o644 .ok,
         .createKey pkh { hash := .sha256, pcrs := [0] } defaultPassword defaultPassword
            rsaKeyParams (.ok (privInternal, pubArea)),
         .load pkh defaultPassword pubArea privInternal (.ok newHandle),
         .flushContext pkh none,
         .contextSave newHandle (.ok ekhBytes),
         .writeFile flags.keyHandle ekhBytes 0o644 .ok,
         .flushContext newHandle none,
         .close none] ∧ (provision E flags w).flow = .next () := by
  apply provision_ok
  intro e he
  by_cases hd : e.isDeviceOp = true
  · exact hok e he hd
  · revert he
    unfold provision
    simp only
    repeat' split
    all_goals
      intro he
      simp only [List.mem_cons, List.mem_singleton, List.not_mem_nil, or_false] at he
      rcases he with rfl | rfl | rfl | rfl | rfl | rfl | rfl | rfl | rfl | rfl | rfl
      all_goals first | rfl | exact absurd rfl hd

/-! ## Properties of the handle count and of provisioning -/

/-- C8. The count of cleared handles is kept and never written: on the
scenario of the contract (flush scope `transient`, three stale transient
handles, two saved sessions) the janitor loop flushes the three handles and
ends with `totalHandles = 3`, and all the text the run writes is one line per
flushed handle and the three lines of the signing part; no text holds the
count. -/
theorem janitor_count_never_logged :
    (janitorOf (simEnv noFault) transientFlags simStale).flow = .next 3 ∧
    flushCmds (janitorOf (simEnv noFault) transientFlags simStale).trace
      = [0x80000000, 0x80000001, 0x80000002] ∧
    (main (simEnv noFault) simLib transientFlags simStale).trace.filter Event.isOutput
      = [.stdout "Handle 0x80000000 flushed\n", .stdout "Handle 0x80000001 flushed\n",
         .stdout "Handle 0x80000002 flushed\n", .stdout "Data to sign foo\n",
         .stdout "Signed String: ppg\n", .stdout "Signed String verified\n"] := by
  decide

/-- C2. An error of the `FlushContext` of the primary handle (line 130) does
not abort the run: on an empty TPM with the default flags, when that flush
fails, `main` goes on to save and write the signing key, flush it, close the
device, sign and verify, and returns normally; so "every step's error aborts
the remaining steps" does not hold of this run. -/
theorem provisioning_flush_error_ignored :
    (main (simEnv (faultAt 9)) simLib defaultFlags simEmpty).trace.drop 9
      = [.flushContext 0x80000000 (some simError),
         .contextSave 0x80000001 (.ok [0xCB, 1]),
         .writeFile "key.bin" [0xCB, 1] 0o644 .ok,
         .flushContext 0x80000001 none,
         .close none,
         .stdout "Data to sign foo\n",
         .newTPMCrypto { tpmDevice := "/dev/tpm0", tpmHandleFile := "key.bin",
                         signatureAlgorithm := .sha256WithRSA } none,
         .sign [103, 112, 112] .sha256 (.ok [112, 112, 103]),
         .stdout "Signed String: ppg\n",
         .getPublic (.rsa 3233 17),
         .verifyPKCS1v15 3233 17 .sha256 [103, 112, 112] [112, 112, 103] none,
         .stdout "Signed String verified\n"] ∧
    (main (simEnv (faultAt 9)) simLib defaultFlags simEmpty).outcome = .returned ∧
    ¬ AbortsOnError (main (simEnv (faultAt 9)) simLib defaultFlags simEmpty).trace := by
  have h : (main (simEnv (faultAt 9)) simLib defaultFlags simEmpty).trace.drop 9
      = [.flushContext 0x80000000 (some simError),
         .contextSave 0x80000001 (.ok [0xCB, 1]),
         .writeFile "key.bin" [0xCB, 1] 0o644 .ok,
         .flushContext 0x80000001 none,
         .close none,
         .stdout "Data to sign foo\n",
         .newTPMCrypto { tpmDevice := "/dev/tpm0", tpmHandleFile := "key.bin",
                         signatureAlgorithm := .sha256WithRSA } none,
         .sign [103, 112, 112] .sha256 (.ok [112, 112, 103]),
         .stdout "Signed String: ppg\n",
         .getPublic (.rsa 3233 17),
         .verifyPKCS1v15 3233 17 .sha256 [103, 112, 112] [112, 112, 103] none,
         .stdout "Signed String verified\n"] := by decide
  refine ⟨h, by decide, fun hab => ?_⟩
  have := hab ((main (simEnv (faultAt 9)) simLib defaultFlags simEmpty).trace.take 9) _ _
    (by rw [← h, List.take_append_drop]) (by decide) (.contextSave 0x80000001 (.ok [0xCB, 1]))
    (by simp)
  simp [Event.isDeviceOp] at this

/-- C3, as stated, fails: on an empty TPM with the default flags, when
`CreatePrimary` fails, the device was opened, `main` returns, and `Close` was
never called. -/
theorem device_left_open_on_error :
    ((simEnv (faultAt 4)).openTPM defaultFlags.tpmPath simEmpty).1 = none ∧
    (main (simEnv (faultAt 4)) simLib defaultFlags simEmpty).outcome = .returned ∧
    closeIssued (main (simEnv (faultAt 4)) simLib defaultFlags simEmpty).trace = false := by
  decide

/-- C3, amended. When the device opens, `main` calls `Close` on it exactly
when no call of the janitor loop fails and no `CreatePrimary`, `ContextSave`,
`WriteFile`, `CreateKey` or `Load` fails: the device is closed on the success
path, and on each of those error paths `main` stops without closing it. -/
theorem device_closed_iff_no_checked_failure {σ : Type} (E : Env σ) (L : Lib) (flags : Flags)
    (w : σ) (hopen : (E.openTPM flags.tpmPath w).1 = none) :
    closeIssued (main E L flags w).trace = true ↔
      (∀ e ∈ (janitorOf E flags w).trace, e.failed = false) ∧
      (∀ e ∈ (main E L flags w).trace, e.isProvisionCheck = true → e.failed = false) := by
  have hjc : closeIssued (janitorOf E flags w).trace = false := closeIssued_janitor _ _ _ _ _
  have hjn := janitor_not_check E flags.tpmPath (handleNames flags.flush) 0
    (E.openTPM flags.tpmPath w).2
  have hiff := janitor_next_iff E flags.tpmPath (handleNames flags.flush) 0
    (E.openTPM flags.tpmPath w).2
  have hsd := signVerify_no_deviceOp E L flags (provisionOf E flags w).world
  have hpc := provision_close_iff E flags (janitorOf E flags w).world
  rw [main_eq E L flags w hopen]
  cases hfl : (janitorOf E flags w).flow with
  | halt o =>
    have hno : ¬ ∀ e ∈ (janitorOf E flags w).trace, e.failed = false := by
      intro hall
      obtain ⟨m, hm⟩ := hiff.mpr hall
      have hm' : (janitorOf E flags w).flow = .next m := hm
      rw [hfl] at hm'
      cases hm'
    simp [closeIssued, hjc, hno]
  | next m =>
    have hall : ∀ e ∈ (janitorOf E flags w).trace, e.failed = false := hiff.mp ⟨m, hfl⟩
    cases hp : (provisionOf E flags w).flow with
    | halt o =>
      simp only [closeIssued, closeIssued_append, hjc, Bool.false_or]
      rw [show closeIssued (provisionOf E flags w).trace = closeIssued
        (provision E flags (janitorOf E flags w).world).trace from rfl, hpc]
      constructor
      · intro h
        refine ⟨hall, fun e he hc => ?_⟩
        simp only [List.mem_cons, List.mem_append] at he
        rcases he with rfl | he | he
        · cases hc
        · rw [hjn e he] at hc
          cases hc
        · exact h e he hc
      · rintro ⟨-, h⟩ e he hc
        exact h e (by simp [provisionOf, he]) hc
    | next u =>
      have hsc : closeIssued (signVerifyOf E L flags w).trace = false :=
        closeIssued_of_no_deviceOp _ hsd
      simp only [closeIssued, closeIssued_append, hjc, hsc, Bool.false_or, Bool.or_false]
      rw [show closeIssued (provisionOf E flags w).trace = closeIssued
        (provision E flags (janitorOf E flags w).world).trace from rfl, hpc]
      constructor
      · intro h
        refine ⟨hall, fun e he hc => ?_⟩
        simp only [List.mem_cons, List.mem_append] at he
        rcases he with rfl | (he | he) | he
        · cases hc
        · rw [hjn e he] at hc
          cases hc
        · exact h e he hc
        · rw [not_check_of_no_deviceOp e (hsd e he)] at hc
          cases hc
      · rintro ⟨-, h⟩ e he hc
        exact h e (by simp [provisionOf, he]) hc

/-- C3, amended, on a run in which every call succeeds. -/
theorem device_closed_iff_no_checked_failure_witness :
    ((simEnv noFault).openTPM defaultFlags.tpmPath simEmpty).1 = none ∧
    closeIssued (main (simEnv noFault) simLib defaultFlags simEmpty).trace = true :=
  ⟨by decide,
    (device_closed_iff_no_checked_failure (simEnv noFault) simLib defaultFlags simEmpty
      (by decide)).mpr ⟨by decide, by decide⟩⟩

/-- C4. Provisioning order on the success path: when the device opens and no
call to the device or to storage fails, the run is `OpenTPM`, the janitor
loop, then exactly `CreatePrimary` under the owner hierarchy, `ContextSave` of
the primary handle, the write of those bytes to the primary blob file,
`CreateKey` under the primary handle, `Load` under the primary handle of the
two blobs `CreateKey` returned, `FlushContext` of the primary handle,
`ContextSave` of the loaded key handle, the write of those bytes to the key
blob file, `FlushContext` of the key handle, `Close`; what follows is the
signing part, which makes no call to the device or to storage. -/
theorem provisioning_order {σ : Type} (E : Env σ) (L : Lib) (flags : Flags) (w : σ)
    (hopen : (E.openTPM flags.tpmPath w).1 = none)
    (hok : ∀ e ∈ (main E L flags w).trace, e.isDeviceOp = true → e.failed = false) :
    ∃ pkh pkhBytes privInternal pubArea newHandle ekhBytes,
      (main E L flags w).trace = .openTPM flags.tpmPath none ::
        ((janitorOf E flags w).trace ++
          [.createPrimary HandleOwner { hash := .sha256, pcrs := [0] } emptyPassword
              emptyPassword defaultKeyParams (.ok pkh),
           .contextSave pkh (.ok pkhBytes),
           .writeFile flags.primaryHandle pkhBytes 0o644 .ok,
           .createKey pkh { hash := .sha256, pcrs := [0] } defaultPassword defaultPassword
              rsaKeyParams (.ok (privInternal, pubArea)),
           .load pkh defaultPassword pubArea privInternal (.ok newHandle),
           .flushContext pkh none,
           .contextSave newHandle (.ok ekhBytes),
           .writeFile flags.keyHandle ekhBytes 0o644 .ok,
           .flushContext newHandle none,
           .close none] ++ (signVerifyOf E L flags w).trace) ∧
      (∀ x ∈ (janitorOf E flags w).trace, x.isProvisionCheck = false) ∧
      (∀ x ∈ (signVerifyOf E L flags w).trace, x.isDeviceOp = false) := by
  have hj : ∀ e ∈ (janitorOf E flags w).trace, e.failed = false :=
    janitor_failed_of_deviceOp E flags.tpmPath (handleNames flags.flush) 0
      (E.openTPM flags.tpmPath w).2
      (fun x hx hd => hok x (janitor_sub_main E L flags w hopen x hx) hd)
  obtain ⟨m, hm⟩ := (janitor_next_iff E flags.tpmPath (handleNames flags.flush) 0
    (E.openTPM flags.tpmPath w).2).mpr hj
  have hm' : (janitorOf E flags w).flow = .next m := hm
  obtain ⟨pkh, pkhBytes, priv, pub, newHandle, ekhBytes, hshape, hflow⟩ :=
    provision_ok_of_deviceOp E flags (janitorOf E flags w).world
      (fun x hx hd => hok x (provision_sub_main E L flags w hopen m hm' x hx) hd)
  have hshape' : (provisionOf E flags w).trace = _ := hshape
  have hflow' : (provisionOf E flags w).flow = .next () := hflow
  refine ⟨pkh, pkhBytes, priv, pub, newHandle, ekhBytes, ?_,
    janitor_not_check E flags.tpmPath (handleNames flags.flush) 0 (E.openTPM flags.tpmPath w).2,
    signVerify_no_deviceOp E L flags (provisionOf E flags w).world⟩
  rw [main_eq E L flags w hopen, hm', hflow', hshape']

/-- C4, on a run in which every call succeeds. -/
theorem provisioning_order_witness :
    ((simEnv noFault).openTPM defaultFlags.tpmPath simEmpty).1 = none ∧
    (∀ e ∈ (main (simEnv noFault) simLib defaultFlags simEmpty).trace,
      e.isDeviceOp = true → e.failed = false) ∧
    ∃ pkh pkhBytes privInternal pubArea newHandle ekhBytes,
      (main (simEnv noFault) simLib defaultFlags simEmpty).trace
        = .openTPM defaultFlags.tpmPath none ::
        ((janitorOf (simEnv noFault) defaultFlags simEmpty).trace ++
          [.createPrimary HandleOwner { hash := .sha256, pcrs := [0] } emptyPassword
              emptyPassword defaultKeyParams (.ok pkh),
           .contextSave pkh (.ok pkhBytes),
           .writeFile defaultFlags.primaryHandle pkhBytes 0o644 .ok,
           .createKey pkh { hash := .sha256, pcrs := [0] } defaultPassword defaultPassword
              rsaKeyParams (.ok (privInternal, pubArea)),
           .load pkh defaultPassword pubArea privInternal (.ok newHandle),
           .flushContext pkh none,
           .contextSave newHandle (.ok ekhBytes),
           .writeFile defaultFlags.keyHandle ekhBytes 0o644 .ok,
           .flushContext newHandle none,
           .close none] ++ (signVerifyOf (simEnv noFault) simLib defaultFlags simEmpty).trace) ∧
      (∀ x ∈ (janitorOf (simEnv noFault) defaultFlags simEmpty).trace,
        x.isProvisionCheck = false) ∧
      (∀ x ∈ (signVerifyOf (simEnv noFault) simLib defaultFlags simEmpty).trace,
        x.isDeviceOp = false) :=
  ⟨by decide, by decide,
    provisioning_order (simEnv noFault) simLib defaultFlags simEmpty (by decide) (by decide)⟩

/-! ## Storage: no rollback -/

theorem split_first_unique {α : Type} (p : α → Bool) (pre post before rest : List α) (x y : α)
    (h : pre ++ x :: post = before ++ y :: rest) (hy : p y = true)
    (hpre : ∀ z ∈ pre, p z = false) (hpost : ∀ z ∈ post, p z = false) :
    before = pre ∧ y = x ∧ rest = post := by
  induction pre generalizing before with
  | nil =>
    cases before with
    | nil =>
      simp only [List.nil_append, List.cons.injEq] at h
      exact ⟨rfl, h.1.symm, h.2.symm⟩
    | cons b bs =>
      simp only [List.nil_append, List.cons_append, List.cons.injEq] at h
      have : y ∈ post := by rw [h.2]; simp
      rw [hpost y this] at hy
      cases hy
  | cons a pre ih =>
    cases before with
    | nil =>
      simp only [List.nil_append, List.cons_append, List.cons.injEq] at h
      have := hpre a (by simp)
      rw [h.1, hy] at this
      cases this
    | cons b bs =>
      simp only [List.cons_append, List.cons.injEq] at h
      obtain ⟨h1, h2, h3⟩ := ih bs h.2 (fun z hz => hpre z (by simp [hz]))
      exact ⟨by rw [h.1, h1], h2, h3⟩

theorem filesAfter_of_no_writes {ι : Type} [DecidableEq ι] (resolve : String → ι)
    (fs : FileStore ι) (tr : List Event) (h : writtenPaths tr = []) :
    filesAfter resolve fs tr = fs := by
  induction tr generalizing fs with
  | nil => rfl
  | cons e tr ih =>
    cases e <;> simp_all [writtenPaths, filesAfter, Event.apply]

theorem janitor_no_createPrimary {σ : Type} (E : Env σ) (p : String) (ts : List HandleType)
    (n : Nat) (w : σ) : ∀ x ∈ (janitor E p ts n w).trace, x.isCreatePrimary = false := by
  intro x hx
  rcases janitor_alphabet E p ts n w x hx with ⟨t, r, rfl⟩ | ⟨h, r, rfl⟩ | ⟨h, rfl⟩ | ⟨m, rfl⟩ <;> rfl

theorem not_createPrimary_of_no_deviceOp (x : Event) (h : x.isDeviceOp = false) :
    x.isCreatePrimary = false := by
  cases x <;> simp_all [Event.isDeviceOp, Event.isCreatePrimary]

theorem not_failed_keyStep_of_no_deviceOp (x : Event) (h : x.isDeviceOp = false) :
    x.isKeyStep = false := by
  cases x <;> simp_all [Event.isDeviceOp, Event.isKeyStep]

theorem apply_write_ok_same {ι : Type} [DecidableEq ι] (resolve : String → ι) (path : String)
    (data : Bytes) (perm : Nat) (fs : FileStore ι) :
    (Event.writeFile path data perm .ok).apply resolve fs (resolve path) = some data := by
  simp [Event.apply]

theorem apply_write_other {ι : Type} [DecidableEq ι] (resolve : String → ι) (path : String)
    (data : Bytes) (perm : Nat) (r : WriteRes) (fs : FileStore ι) (q : ι)
    (h : q ≠ resolve path) :
    (Event.writeFile path data perm r).apply resolve fs q = fs q := by
  cases r with
  | ok => simp [Event.apply, h]
  | err e l => cases l <;> simp [Event.apply, h]

theorem apply_of_not_write {ι : Type} [DecidableEq ι] (resolve : String → ι) (e : Event)
    (fs : FileStore ι) (h : e.isWrite = false) :
    e.apply resolve fs = fs := by
  cases e <;> simp_all [Event.apply, Event.isWrite]

theorem mem_of_mem_cons_keyStep (e a : Event) (l : List Event) (he : e ∈ a :: l)
    (hk : e.isKeyStep = true) (hf : e.failed = true) (ha : (a.isKeyStep && a.failed) = false) :
    e ∈ l := by
  rcases List.mem_cons.mp he with rfl | he
  · simp [hk, hf] at ha
  · exact he

/-- The core of the no-rollback property: provisioning run after events that
neither create a primary nor write a file, and followed by events that make no
call to the device or to storage. -/
theorem provision_no_rollback {σ ι : Type} [DecidableEq ι] (E : Env σ) (flags : Flags) (w : σ)
    (resolve : String → ι) (fs : FileStore ι)
    (pre post : List Event) (hne : resolve flags.primaryHandle ≠ resolve flags.keyHandle)
    (hpre : ∀ x ∈ pre, x.isCreatePrimary = false) (hprew : writtenPaths pre = [])
    (hpost : ∀ x ∈ post, x.isDeviceOp = false) :
    NoRollback resolve flags fs (pre ++ (provision E flags w).trace ++ post) := by
  have hpostw : writtenPaths post = [] := writtenPaths_of_no_deviceOp post hpost
  have hpostc : ∀ x ∈ post, x.isCreatePrimary = false :=
    fun x hx => not_createPrimary_of_no_deviceOp x (hpost x hx)
  have hpostk : ∀ x ∈ post, x.isKeyStep = false :=
    fun x hx => not_failed_keyStep_of_no_deviceOp x (hpost x hx)
  have hne' : resolve flags.keyHandle ≠ resolve flags.primaryHandle := fun h => hne h.symm
  intro before owner sel pw1 pw2 tmpl pkh pkhBytes after e htr he hk hf
  rw [htr]
  revert htr
  unfold provision
  simp only
  repeat' split
  all_goals
    intro htr
    simp only [List.append_assoc, List.cons_append, List.nil_append] at htr
    obtain ⟨hb, hcp, hrest⟩ := split_first_unique Event.isCreatePrimary _ _ _ _ _ _ htr rfl hpre
      (by simpa [Event.isCreatePrimary] using hpostc)
    subst hb
    clear htr
    first
      | (simp at hcp; done)
      | skip
  all_goals
    first
      | (simp at hrest; done)
      | skip
  all_goals
    simp only [Event.createPrimary.injEq, Res.ok.injEq] at hcp
    obtain ⟨rfl, rfl, rfl, rfl, rfl, rfl⟩ := hcp
    simp only [List.cons.injEq, Event.contextSave.injEq, Res.ok.injEq, Event.writeFile.injEq,
      true_and, and_true] at hrest
    obtain ⟨-, rfl, rfl⟩ := hrest
    repeat (replace he := mem_of_mem_cons_keyStep _ _ _ he hk hf rfl)
    first
      | exact absurd hk (by rw [hpostk e he]; simp)
      | skip
  all_goals
    rcases List.mem_cons.mp he with rfl | he
    · refine ⟨?_, ?_, ?_⟩
      · simp [filesAfter, filesAfter_of_no_writes _ _ _ hprew,
          filesAfter_of_no_writes _ _ _ hpostw, apply_write_ok_same, apply_write_other,
          apply_of_not_write, Event.isWrite, hne, hne']
      · simp [writtenFiles, writtenPaths, hprew, hpostw, hne, hne']
      · simp [filesAfter, filesAfter_of_no_writes _ _ _ hprew,
          filesAfter_of_no_writes _ _ _ hpostw, apply_write_ok_same, apply_write_other,
          apply_of_not_write, Event.isWrite, hne, hne']
    · repeat (replace he := mem_of_mem_cons_keyStep _ _ _ he hk hf rfl)
      exact absurd hk (by rw [hpostk e he]; simp)

theorem noRollback_of_no_createPrimary {ι : Type} [DecidableEq ι] (resolve : String → ι)
    (flags : Flags) (fs : FileStore ι) (tr : List Event)
    (h : ∀ x ∈ tr, x.isCreatePrimary = false) : NoRollback resolve flags fs tr := by
  intro before owner sel pw1 pw2 tmpl pkh pkhBytes after e htr _ _ _
  have := h (.createPrimary owner sel pw1 pw2 tmpl (.ok pkh)) (by rw [htr]; simp)
  cases this

theorem main_of_open_err {σ : Type} (E : Env σ) (L : Lib) (flags : Flags) (w : σ) (err : GoError)
    (hopen : (E.openTPM flags.tpmPath w).1 = some err) :
    (main E L flags w).trace
      = [.openTPM flags.tpmPath (some err), .stderr (msgOpen flags.tpmPath err)] ∧
    (main E L flags w).outcome = .returned := by
  unfold main
  rcases ho : E.openTPM flags.tpmPath w with ⟨r, w1⟩
  rw [ho] at hopen
  simp only at hopen
  subst hopen
  exact ⟨rfl, rfl⟩

/-- C6, as stated, fails: with `-primaryHandle` and `-keyHandle` naming the
same file, on an empty TPM, when `CreateKey` fails after the primary blob was
written, the key blob file (the same file) is not as it was before the run. -/
theorem rollback_claim_fails_on_same_file :
    ¬ NoRollback simResolve sameFileFlags noFiles
        (main (simEnv (faultAt 7)) simLib sameFileFlags simEmpty).trace := by
  intro h
  have h3 := (h ((main (simEnv (faultAt 7)) simLib sameFileFlags simEmpty).trace.take 4)
    HandleOwner { hash := .sha256, pcrs := [0] } emptyPassword emptyPassword defaultKeyParams
    0x80000000 [0xCB, 0]
    ((main (simEnv (faultAt 7)) simLib sameFileFlags simEmpty).trace.drop 7)
    (.createKey 0x80000000 { hash := .sha256, pcrs := [0] } defaultPassword defaultPassword
      rsaKeyParams (.err simError))
    (by decide) (by decide) rfl rfl).2.2 rfl
  exact absurd h3 (by decide)

/-- Two different paths to one file: with `-primaryHandle handle.bin` and
`-keyHandle ./handle.bin`, when `CreateKey` fails after the primary blob was
written, the file `-keyHandle` leads to holds the primary blob, though the
paths differ as strings. -/
theorem alias_paths_write_one_file :
    aliasFlags.primaryHandle ≠ aliasFlags.keyHandle ∧
    simResolve aliasFlags.primaryHandle = simResolve aliasFlags.keyHandle ∧
    filesAfter simResolve noFiles
      (main (simEnv (faultAt 7)) simLib aliasFlags simEmpty).trace
      (simResolve aliasFlags.keyHandle) = some [0xCB, 0] ∧
    ¬ NoRollback simResolve aliasFlags noFiles
        (main (simEnv (faultAt 7)) simLib aliasFlags simEmpty).trace := by
  refine ⟨by decide, by decide, by decide, fun h => ?_⟩
  have h3 := (h ((main (simEnv (faultAt 7)) simLib aliasFlags simEmpty).trace.take 4)
    HandleOwner { hash := .sha256, pcrs := [0] } emptyPassword emptyPassword defaultKeyParams
    0x80000000 [0xCB, 0]
    ((main (simEnv (faultAt 7)) simLib aliasFlags simEmpty).trace.drop 7)
    (.createKey 0x80000000 { hash := .sha256, pcrs := [0] } defaultPassword defaultPassword
      rsaKeyParams (.err simError))
    (by decide) (by decide) rfl rfl).2.2 rfl
  exact absurd h3 (by decide)

/-- C6, amended. When `-primaryHandle` and `-keyHandle` lead to different
files (whatever the file system's naming `resolve` of paths is, and whatever
the files held before): in every run that created the primary, saved its
context and wrote the bytes to the primary blob file, and in which a later
`CreateKey`, `Load`, `ContextSave` or `WriteFile` failed, the primary blob
file holds those bytes after the run, the run wrote that file exactly once,
and unless the failed step is the write of the key file, the key blob file is
as it was before the run. -/
theorem no_rollback_when_files_differ {σ ι : Type} [DecidableEq ι] (E : Env σ) (L : Lib)
    (flags : Flags) (w : σ) (resolve : String → ι) (fs : FileStore ι)
    (hne : resolve flags.primaryHandle ≠ resolve flags.keyHandle) :
    NoRollback resolve flags fs (main E L flags w).trace := by
  cases hopen : (E.openTPM flags.tpmPath w).1 with
  | some err =>
    apply noRollback_of_no_createPrimary
    rw [(main_of_open_err E L flags w err hopen).1]
    intro x hx
    simp only [List.mem_cons, List.mem_singleton, List.not_mem_nil, or_false] at hx
    rcases hx with rfl | rfl <;> rfl
  | none =>
    have hjc := janitor_no_createPrimary E flags.tpmPath (handleNames flags.flush) 0
      (E.openTPM flags.tpmPath w).2
    have hjw : writtenPaths (janitorOf E flags w).trace = [] := writtenPaths_janitor _ _ _ _ _
    have hpre : ∀ x ∈ Event.openTPM flags.tpmPath none :: (janitorOf E flags w).trace,
        x.isCreatePrimary = false := by
      intro x hx
      rcases List.mem_cons.mp hx with rfl | hx
      · rfl
      · exact hjc x hx
    have hprew : writtenPaths (Event.openTPM flags.tpmPath none :: (janitorOf E flags w).trace)
        = [] := by
      simp [writtenPaths, hjw]
    rw [main_eq E L flags w hopen]
    cases (janitorOf E flags w).flow with
    | halt o => exact noRollback_of_no_createPrimary _ _ _ _ hpre
    | next m =>
      cases (provisionOf E flags w).flow with
      | halt o =>
        have := provision_no_rollback E flags (janitorOf E flags w).world resolve fs _ [] hne
          hpre hprew (by simp)
        simpa [provisionOf] using this
      | next u =>
        have := provision_no_rollback E flags (janitorOf E flags w).world resolve fs _
          (signVerifyOf E L flags w).trace hne hpre hprew
          (signVerify_no_deviceOp E L flags (provisionOf E flags w).world)
        simpa [provisionOf] using this

/-- C6, amended, on a run with the default file names in which `CreateKey`
fails after the primary blob was written. -/
theorem no_rollback_when_files_differ_witness :
    simResolve defaultFlags.primaryHandle ≠ simResolve defaultFlags.keyHandle ∧
    NoRollback simResolve defaultFlags noFiles
      (main (simEnv (faultAt 7)) simLib defaultFlags simEmpty).trace ∧
    filesAfter simResolve noFiles (main (simEnv (faultAt 7)) simLib defaultFlags simEmpty).trace
      (simResolve "primary.bin") = some [0xCB, 0] ∧
    filesAfter simResolve noFiles (main (simEnv (faultAt 7)) simLib defaultFlags simEmpty).trace
      (simResolve "key.bin") = none :=
  ⟨by decide,
    no_rollback_when_files_differ (simEnv (faultAt 7)) simLib defaultFlags simEmpty
      simResolve noFiles (by decide),
    by decide, by decide⟩

/-! ## Signing and verification -/

theorem provision_close_none {σ : Type} (E : Env σ) (flags : Flags) (w : σ)
    (h : Event.close none ∈ (provision E flags w).trace) :
    (provision E flags w).flow = .next () ∧
      ∃ newHandle keyBytes res, (provision E flags w).trace.drop 6 =
        [.contextSave newHandle (.ok keyBytes),
         .writeFile flags.keyHandle keyBytes 0o644 .ok,
         .flushContext newHandle res,
         .close none] := by
  revert h
  unfold provision
  simp only
  repeat' split
  all_goals
    intro h
    first
      | (simp at h; done)
      | exact ⟨rfl, _, _, _, rfl⟩

/-- Every event of provisioning is a call to the device or to storage, or a
message on standard error. -/
theorem provision_alphabet {σ : Type} (E : Env σ) (flags : Flags) (w : σ) :
    ∀ x ∈ (provision E flags w).trace, x.isDeviceOp = true ∨ ∃ m, x = Event.stderr m := by
  unfold provision
  simp only
  repeat' split
  all_goals simp [Event.isDeviceOp]

theorem msgFlushed_ne_verified (h : Handle) : msgFlushed h ≠ "Signed String verified\n" := by
  intro heq
  have h1 : (msgFlushed h).data.head? = some 'H' := by
    simp only [msgFlushed, String.data_append]
    rfl
  rw [heq] at h1
  exact absurd h1 (by decide)

theorem signedLine_ne_verified (b : String) :
    "Signed String: " ++ b ++ "\n" ≠ "Signed String verified\n" := by
  intro heq
  have h1 : ("Signed String: " ++ b ++ "\n").data[13]? = some ':' := by
    simp only [String.data_append]
    rfl
  rw [heq] at h1
  exact absurd h1 (by decide)

/-- The signing block when the signer is built, `Sign` succeeds and the public
key is an RSA key: the four calls are made in this order, each in the world
the one before left, each result is the answer of the environment, and the
last line printed depends on the answer of the verification. -/
theorem signVerify_shape {σ : Type} (E : Env σ) (L : Lib) (flags : Flags) (w : σ)
    (hsig : ∀ x ∈ (signVerify E L flags w).trace, x.isSignStep = true → x.failed = false)
    (hpub : Event.getPublic .other ∉ (signVerify E L flags w).trace) :
    ∃ sig n e vres w1 w2 w3 w4,
      E.newTPMCrypto { tpmDevice := flags.tpmPath, tpmHandleFile := flags.keyHandle,
                       signatureAlgorithm := .sha256WithRSA } w = (none, w1) ∧
      E.sign (L.sha256 stringToSignBytes) .sha256 w1 = (.ok sig, w2) ∧
      E.getPublic w2 = (.rsa n e, w3) ∧
      E.verifyPKCS1v15 n e .sha256 (L.sha256 stringToSignBytes) sig w3 = (vres, w4) ∧
      (signVerify E L flags w).world = w4 ∧
      (signVerify E L flags w).outcome = .returned ∧
      (signVerify E L flags w).trace =
        [.stdout ("Data to sign " ++ "foo" ++ "\n"),
         .newTPMCrypto { tpmDevice := flags.tpmPath, tpmHandleFile := flags.keyHandle,
                         signatureAlgorithm := .sha256WithRSA } none,
         .sign (L.sha256 stringToSignBytes) .sha256 (.ok sig),
         .stdout ("Signed String: " ++ L.base64 sig ++ "\n"),
         .getPublic (.rsa n e),
         .verifyPKCS1v15 n e .sha256 (L.sha256 stringToSignBytes) sig vres,
         match vres with
         | none => .stdout "Signed String verified\n"
         | some err => .println (some err)] := by
  revert hsig hpub
  unfold signVerify
  simp only
  repeat' split
  all_goals
    intro hsig hpub
    first
      | (simp [Event.isSignStep, Event.failed] at hsig; done)
      | (simp at hpub; done)
      | exact ⟨_, _, _, _, _, _, _, _, by assumption, by assumption, by assumption,
          by assumption, rfl, rfl, rfl⟩

theorem not_signerOp_of_deviceOp (x : Event) (h : x.isDeviceOp = true) : x.isSignerOp = false := by
  cases x <;> simp_all [Event.isDeviceOp, Event.isSignerOp]

/-- A run in which `Close` returned no error went through the janitor and the
whole of provisioning, and ends with the signing block. -/
theorem main_of_close_none {σ : Type} (E : Env σ) (L : Lib) (flags : Flags) (w : σ)
    (hprov : Event.close none ∈ (main E L flags w).trace) :
    (E.openTPM flags.tpmPath w).1 = none ∧
    main E L flags w = ⟨(signVerifyOf E L flags w).outcome, (signVerifyOf E L flags w).world,
      .openTPM flags.tpmPath none ::
        ((janitorOf E flags w).trace ++ (provisionOf E flags w).trace
          ++ (signVerifyOf E L flags w).trace)⟩ ∧
    ∃ newHandle keyBytes res, (provisionOf E flags w).trace.drop 6 =
      [.contextSave newHandle (.ok keyBytes),
       .writeFile flags.keyHandle keyBytes 0o644 .ok,
       .flushContext newHandle res,
       .close none] := by
  have hjc : ∀ r, Event.close r ∉ (janitorOf E flags w).trace :=
    (closeIssued_false_iff _).mp (closeIssued_janitor _ _ _ _ _)
  have hsc : ∀ r, Event.close r ∉ (signVerifyOf E L flags w).trace :=
    (closeIssued_false_iff _).mp (closeIssued_of_no_deviceOp _
      (signVerify_no_deviceOp E L flags (provisionOf E flags w).world))
  cases hopen : (E.openTPM flags.tpmPath w).1 with
  | some err =>
    rw [(main_of_open_err E L flags w err hopen).1] at hprov
    simp at hprov
  | none =>
    have hmain := main_eq E L flags w hopen
    cases hfl : (janitorOf E flags w).flow with
    | halt o =>
      rw [hmain, hfl] at hprov
      simp only [List.mem_cons] at hprov
      rcases hprov with h | h
      · cases h
      · exact absurd h (hjc none)
    | next m =>
      rw [hfl] at hmain
      simp only at hmain
      have hp : Event.close none ∈ (provisionOf E flags w).trace := by
        rw [hmain] at hprov
        revert hprov
        cases (provisionOf E flags w).flow with
        | halt o =>
          intro hprov
          simp only [List.mem_cons, List.mem_append] at hprov
          rcases hprov with h | h | h
          · cases h
          · exact absurd h (hjc none)
          · exact h
        | next u =>
          intro hprov
          simp only [List.mem_cons, List.mem_append] at hprov
          rcases hprov with h | (h | h) | h
          · cases h
          · exact absurd h (hjc none)
          · exact h
          · exact absurd h (hsc none)
      obtain ⟨hflow, hkey⟩ := provision_close_none E flags (janitorOf E flags w).world hp
      have hflow' : (provisionOf E flags w).flow = .next () := hflow
      rw [hflow'] at hmain
      exact ⟨rfl, hmain, hkey⟩

/-! ## Property of signing and verification -/

/-- C9. Sign/verify wiring: in every run in which provisioning completed
(`Close` returned no error), the signer was built, `Sign` succeeded and the
public key is an RSA key: the device was opened at `-tpm-path`; provisioning
ended by saving the context of the key handle and writing those bytes to the
`-keyHandle` file; then, in the world provisioning left, the signer is built
over that same device path and that same file; `Sign` is called on it with
the SHA-256 digest of the bytes of `"foo"` and hash SHA-256; the public key is
asked for; the PKCS#1 v1.5 verification is called with that key, SHA-256, the
same digest and exactly the bytes `Sign` returned; each call is made in the
world the one before left and its result is the environment's answer; and
`Signed String verified` is printed exactly when the verification returned no
error. -/
theorem sign_verify_wiring {σ : Type} (E : Env σ) (L : Lib) (flags : Flags) (w : σ)
    (hprov : Event.close none ∈ (main E L flags w).trace)
    (hsig : ∀ x ∈ (main E L flags w).trace, x.isSignStep = true → x.failed = false)
    (hpub : Event.getPublic .other ∉ (main E L flags w).trace) :
    ∃ newHandle keyBytes res sig n e vres w1 w2 w3 w4,
      (E.openTPM flags.tpmPath w).1 = none ∧
      (provisionOf E flags w).trace.drop 6 =
        [.contextSave newHandle (.ok keyBytes),
         .writeFile flags.keyHandle keyBytes 0o644 .ok,
         .flushContext newHandle res,
         .close none] ∧
      E.newTPMCrypto { tpmDevice := flags.tpmPath, tpmHandleFile := flags.keyHandle,
                       signatureAlgorithm := .sha256WithRSA } (provisionOf E flags w).world
        = (none, w1) ∧
      E.sign (L.sha256 stringToSignBytes) .sha256 w1 = (.ok sig, w2) ∧
      E.getPublic w2 = (.rsa n e, w3) ∧
      E.verifyPKCS1v15 n e .sha256 (L.sha256 stringToSignBytes) sig w3 = (vres, w4) ∧
      (main E L flags w).world = w4 ∧
      (main E L flags w).outcome = .returned ∧
      (main E L flags w).trace = .openTPM flags.tpmPath none ::
        ((janitorOf E flags w).trace ++ (provisionOf E flags w).trace ++
          [.stdout ("Data to sign " ++ "foo" ++ "\n"),
           .newTPMCrypto { tpmDevice := flags.tpmPath, tpmHandleFile := flags.keyHandle,
                           signatureAlgorithm := .sha256WithRSA } none,
           .sign (L.sha256 stringToSignBytes) .sha256 (.ok sig),
           .stdout ("Signed String: " ++ L.base64 sig ++ "\n"),
           .getPublic (.rsa n e),
           .verifyPKCS1v15 n e .sha256 (L.sha256 stringToSignBytes) sig vres,
           match vres with
           | none => .stdout "Signed String verified\n"
           | some err => .println (some err)]) ∧
      (∀ x ∈ (janitorOf E flags w).trace ++ (provisionOf E flags w).trace,
        x.isSignerOp = false) ∧
      (Event.stdout "Signed String verified\n" ∈ (main E L flags w).trace ↔ vres = none) := by
  obtain ⟨hopen, hmain, newHandle, keyBytes, res, hkey⟩ := main_of_close_none E L flags w hprov
  have htr : (main E L flags w).trace = .openTPM flags.tpmPath none ::
      ((janitorOf E flags w).trace ++ (provisionOf E flags w).trace
        ++ (signVerifyOf E L flags w).trace) := by rw [hmain]
  have hja := janitor_alphabet E flags.tpmPath (handleNames flags.flush) 0
    (E.openTPM flags.tpmPath w).2
  have hpa := provision_alphabet E flags (janitorOf E flags w).world
  obtain ⟨sig, n, e, vres, w1, w2, w3, w4, h1, h2, h3, h4, hw, ho, hshape⟩ :=
    signVerify_shape E L flags (provisionOf E flags w).world
      (fun x hx hs => hsig x (by rw [htr]; simp [signVerifyOf, hx]) hs)
      (fun hx => hpub (by rw [htr]; simp [signVerifyOf, hx]))
  have hshape' : (signVerifyOf E L flags w).trace = _ := hshape
  have hw' : (signVerifyOf E L flags w).world = w4 := hw
  have ho' : (signVerifyOf E L flags w).outcome = .returned := ho
  refine ⟨newHandle, keyBytes, res, sig, n, e, vres, w1, w2, w3, w4, hopen, hkey, h1, h2, h3, h4,
    ?_, ?_, ?_, ?_, ?_⟩
  · rw [hmain]
    exact hw'
  · rw [hmain]
    exact ho'
  · rw [htr, hshape']
  · intro x hx
    simp only [List.mem_append] at hx
    rcases hx with hx | hx
    · rcases hja x hx with ⟨t, r, rfl⟩ | ⟨h, r, rfl⟩ | ⟨h, rfl⟩ | ⟨m, rfl⟩ <;> rfl
    · rcases hpa x hx with hd | ⟨m, rfl⟩
      · exact not_signerOp_of_deviceOp x hd
      · rfl
  · rw [htr, hshape']
    constructor
    · intro hv
      simp only [List.mem_cons, List.mem_append, List.mem_singleton, List.not_mem_nil,
        or_false] at hv
      rcases hv with hv | (hv | hv) | hv
      · cases hv
      · rcases hja _ hv with ⟨t, r, h⟩ | ⟨a, r, h⟩ | ⟨a, h⟩ | ⟨m, h⟩
        · cases h
        · cases h
        · simp only [Event.stdout.injEq] at h
          exact absurd h.symm (msgFlushed_ne_verified a)
        · cases h
      · rcases hpa _ hv with hd | ⟨m, h⟩
        · cases hd
        · cases h
      · rcases hv with h | h | h | h | h | h | h
        · simp only [Event.stdout.injEq] at h
          exact absurd h (by decide)
        · cases h
        · cases h
        · simp only [Event.stdout.injEq] at h
          exact absurd h.symm (signedLine_ne_verified _)
        · cases h
        · cases h
        · cases vres with
          | none => rfl
          | some err => cases h
    · intro hv
      subst hv
      simp

/-- C9, on a run in which every call succeeds. -/
theorem sign_verify_wiring_witness :
    Event.close none ∈ (main (simEnv noFault) simLib defaultFlags simEmpty).trace ∧
    (∀ x ∈ (main (simEnv noFault) simLib defaultFlags simEmpty).trace,
      x.isSignStep = true → x.failed = false) ∧
    Event.getPublic .other ∉ (main (simEnv noFault) simLib defaultFlags simEmpty).trace ∧
    ∃ newHandle keyBytes res sig n e vres w1 w2 w3 w4,
      ((simEnv noFault).openTPM defaultFlags.tpmPath simEmpty).1 = none ∧
      (provisionOf (simEnv noFault) defaultFlags simEmpty).trace.drop 6 =
        [.contextSave newHandle (.ok keyBytes),
         .writeFile defaultFlags.keyHandle keyBytes 0o644 .ok,
         .flushContext newHandle res,
         .close none] ∧
      (simEnv noFault).newTPMCrypto
        { tpmDevice := defaultFlags.tpmPath, tpmHandleFile := defaultFlags.keyHandle,
          signatureAlgorithm := .sha256WithRSA }
        (provisionOf (simEnv noFault) defaultFlags simEmpty).world = (none, w1) ∧
      (simEnv noFault).sign (simLib.sha256 stringToSignBytes) .sha256 w1 = (.ok sig, w2) ∧
      (simEnv noFault).getPublic w2 = (.rsa n e, w3) ∧
      (simEnv noFault).verifyPKCS1v15 n e .sha256 (simLib.sha256 stringToSignBytes) sig w3
        = (vres, w4) ∧
      (main (simEnv noFault) simLib defaultFlags simEmpty).world = w4 ∧
      (main (simEnv noFault) simLib defaultFlags simEmpty).outcome = .returned ∧
      (main (simEnv noFault) simLib defaultFlags simEmpty).trace
        = .openTPM defaultFlags.tpmPath none ::
        ((janitorOf (simEnv noFault) defaultFlags simEmpty).trace
          ++ (provisionOf (simEnv noFault) defaultFlags simEmpty).trace ++
          [.stdout ("Data to sign " ++ "foo" ++ "\n"),
           .newTPMCrypto { tpmDevice := defaultFlags.tpmPath,
                           tpmHandleFile := defaultFlags.keyHandle,
                           signatureAlgorithm := .sha256WithRSA } none,
           .sign (simLib.sha256 stringToSignBytes) .sha256 (.ok sig),
           .stdout ("Signed String: " ++ simLib.base64 sig ++ "\n"),
           .getPublic (.rsa n e),
           .verifyPKCS1v15 n e .sha256 (simLib.sha256 stringToSignBytes) sig vres,
           match vres with
           | none => .stdout "Signed String verified\n"
           | some err => .println (some err)]) ∧
      (∀ x ∈ (janitorOf (simEnv noFault) defaultFlags simEmpty).trace
          ++ (provisionOf (simEnv noFault) defaultFlags simEmpty).trace,
        x.isSignerOp = false) ∧
      (Event.stdout "Signed String verified\n"
        ∈ (main (simEnv noFault) simLib defaultFlags simEmpty).trace ↔ vres = none) :=
  ⟨by decide, by decide, by decide,
    sign_verify_wiring (simEnv noFault) simLib defaultFlags simEmpty (by decide) (by decide)
      (by decide)⟩

end SignVerifyTpm
